import Mathlib

/-!
# ossgrok: a verification development

A shallow embedding of the tunnel registry, the framed protocol, the server
multiplexer, the public HTTP ingress and the client dispatcher of
`R44VC0RP/ossgrok`, followed by theorems about them.

Conventions.
* A Go `map[K]V` is an association list with the three primitive map
  operations (`GoMap.get`, `GoMap.set`, `GoMap.delete`); `len` is the length
  of the list and `range` visits its entries.
* A method that mutates its receiver and returns a value is a function from
  the receiver's state to the returned value and the new state.
* A Go `error` is a `String` (the text of `err.Error()`); a function that
  returns `(T, error)` returns `Except String T`.
* Logging is not modelled.
-/

namespace Ossgrok

deriving instance DecidableEq for Except

/-! ## Go maps -/

/-- A Go map as an association list. -/
abbrev GoMap (κ : Type) (ν : Type) := List (κ × ν)

namespace GoMap

variable {κ ν : Type} [DecidableEq κ]

/-- The comma-ok lookup `v, ok := m[k]`. -/
def get (m : GoMap κ ν) (k : κ) : Option ν :=
  match m with
  | [] => none
  | (k', v) :: rest => if k' = k then some v else get rest k

/-- The builtin `delete(m, k)`. -/
def delete (m : GoMap κ ν) (k : κ) : GoMap κ ν :=
  m.filter (fun e => decide (e.1 ≠ k))

/-- The assignment `m[k] = v`: the entry for `k`, if any, is replaced. -/
def set (m : GoMap κ ν) (k : κ) (v : ν) : GoMap κ ν :=
  (k, v) :: delete m k

/-- The keys visited by `for k := range m`. -/
def keys (m : GoMap κ ν) : List κ :=
  m.map Prod.fst

end GoMap

/-! ## tunnel.Connection (the handle the registry stores) -/

/-- The fields of `tunnel.Connection`; `conn` names the websocket. -/
structure Connection where
  domain : String
  tunnelID : String
  conn : Nat
deriving DecidableEq, Repr

/-- The accessor `Connection.Domain`. -/
def Connection.Domain (c : Connection) : String := c.domain

/-- The accessor `Connection.TunnelID`. -/
def Connection.TunnelID (c : Connection) : String := c.tunnelID

/-! ## internal/server/registry -/

/-- The state of `registry.Registry`: the `tunnels` map. -/
structure Registry where
  tunnels : GoMap String Connection
deriving DecidableEq, Repr

/-- The constructor `registry.New`. -/
def Registry.New : Registry := ⟨[]⟩

/-- The method `Registry.Register`: the returned error and the registry afterwards. -/
def Registry.Register (r : Registry) (domain : String) (conn : Connection) :
    Except String Unit × Registry :=
  match GoMap.get r.tunnels domain with
  | some _ => (Except.error ("domain " ++ domain ++ " is already registered"), r)
  | none => (Except.ok (), ⟨GoMap.set r.tunnels domain conn⟩)

/-- The method `Registry.Unregister`. -/
def Registry.Unregister (r : Registry) (domain : String) : Registry :=
  match GoMap.get r.tunnels domain with
  | some _ => ⟨GoMap.delete r.tunnels domain⟩
  | none => r

/-- The method `Registry.GetTunnel`; `none` is `exists = false`. -/
def Registry.GetTunnel (r : Registry) (domain : String) : Option Connection :=
  GoMap.get r.tunnels domain

/-- The method `Registry.Count`. -/
def Registry.Count (r : Registry) : Nat :=
  r.tunnels.length

/-- The method `Registry.List`. -/
def Registry.List (r : Registry) : List String :=
  GoMap.keys r.tunnels

/-- One call made on a registry by its users. -/
inductive RegistryOp where
  | register (domain : String) (conn : Connection)
  | unregister (domain : String)
deriving DecidableEq, Repr

/-- The registry after one call. -/
def RegistryOp.apply (r : Registry) : RegistryOp → Registry
  | .register domain conn => (r.Register domain conn).2
  | .unregister domain => r.Unregister domain

/-- The registry reached from `New()` by a sequence of calls. -/
def runOps (ops : List RegistryOp) : Registry :=
  ops.foldl RegistryOp.apply Registry.New

/-! ## Library models: encoding/base64 and encoding/json

The repository marshals its payloads with `encoding/json`, which writes a
`[]byte` as a standard base64 string. The two libraries are modelled here at
the level of JSON values: a `json.RawMessage` is the value its text denotes
(`none` for an empty raw message), so the text of a frame and the value parsed
from it are identified. A Go `string` is a `String`, a `[]byte` is a list of
bytes, and a nil slice or map is identified with the empty one. The text of
the library's error values is abbreviated. -/

/-- One byte of a `[]byte`. -/
abbrev Byte := Fin 256

/-- The alphabet of `base64.StdEncoding`. -/
def base64Alphabet : List Char :=
  ['A', 'B', 'C', 'D', 'E', 'F', 'G', 'H', 'I', 'J', 'K', 'L', 'M', 'N', 'O', 'P',
   'Q', 'R', 'S', 'T', 'U', 'V', 'W', 'X', 'Y', 'Z', 'a', 'b', 'c', 'd', 'e', 'f',
   'g', 'h', 'i', 'j', 'k', 'l', 'm', 'n', 'o', 'p', 'q', 'r', 's', 't', 'u', 'v',
   'w', 'x', 'y', 'z', '0', '1', '2', '3', '4', '5', '6', '7', '8', '9', '+', '/']

/-- The encoder table lookup `enc.encode[n]`, for a six-bit `n`. -/
def encodeSextet (n : Nat) : Char :=
  base64Alphabet.getD n 'A'

/-- The decoder table lookup `enc.decodeMap[c]`; `none` is the entry `0xff`. -/
def decodeSextet (c : Char) : Option Nat :=
  if c ∈ base64Alphabet then some (base64Alphabet.indexOf c) else none

/-- The encoder `base64.StdEncoding.EncodeToString`: three bytes give four
characters, and a final group of one or two bytes is padded with `=`. -/
def base64Encode : List Byte → List Char
  | [] => []
  | [a] =>
    let val := a.val * 65536
    [encodeSextet (val / 262144 % 64), encodeSextet (val / 4096 % 64), '=', '=']
  | [a, b] =>
    let val := a.val * 65536 + b.val * 256
    [encodeSextet (val / 262144 % 64), encodeSextet (val / 4096 % 64),
     encodeSextet (val / 64 % 64), '=']
  | a :: b :: c :: rest =>
    let val := a.val * 65536 + b.val * 256 + c.val
    encodeSextet (val / 262144 % 64) :: encodeSextet (val / 4096 % 64) ::
      encodeSextet (val / 64 % 64) :: encodeSextet (val % 64) :: base64Encode rest

/-- The decoder `base64.StdEncoding.Decode` on input without line breaks: whole
groups of four characters, the last of which may end in `=` or `==`; any
other input is corrupt (`none`). Decoding is not strict: the unused low bits
of a padded group are dropped. -/
def base64DecodeGroups : List Char → Option (List Byte)
  | [] => some []
  | c0 :: c1 :: c2 :: c3 :: rest =>
    if c2 = '=' ∧ c3 = '=' ∧ rest = [] then
      match decodeSextet c0, decodeSextet c1 with
      | some s0, some s1 =>
        let val := s0 * 262144 + s1 * 4096
        some [Fin.ofNat (val / 65536)]
      | _, _ => none
    else if c3 = '=' ∧ rest = [] then
      match decodeSextet c0, decodeSextet c1, decodeSextet c2 with
      | some s0, some s1, some s2 =>
        let val := s0 * 262144 + s1 * 4096 + s2 * 64
        some [Fin.ofNat (val / 65536), Fin.ofNat (val / 256)]
      | _, _, _ => none
    else
      match decodeSextet c0, decodeSextet c1, decodeSextet c2, decodeSextet c3,
        base64DecodeGroups rest with
      | some s0, some s1, some s2, some s3, some bytes =>
        let val := s0 * 262144 + s1 * 4096 + s2 * 64 + s3
        some (Fin.ofNat (val / 65536) :: Fin.ofNat (val / 256) :: Fin.ofNat val :: bytes)
      | _, _, _, _, _ => none
  | _ => none

/-- The decoder `base64.StdEncoding.DecodeString`: carriage returns and line
feeds are skipped wherever they stand. -/
def base64Decode (s : List Char) : Except String (List Byte) :=
  match base64DecodeGroups (s.filter (fun c => decide (c ≠ '\r' ∧ c ≠ '\n'))) with
  | some bytes => .ok bytes
  | none => .error "illegal base64 data"

/-- A JSON value. A number literal that is a plain integer is `num`; one with a
fraction or an exponent is `frac`, kept as its text. -/
inductive JSON where
  | null
  | bool (b : Bool)
  | num (n : Int)
  | frac (lit : String)
  | str (s : String)
  | arr (elems : List JSON)
  | obj (members : List (String × JSON))

/-- The name of a JSON value's kind in the library's type errors. -/
def JSON.kind : JSON → String
  | .null => "null"
  | .bool _ => "bool"
  | .num _ => "number"
  | .frac _ => "number"
  | .str _ => "string"
  | .arr _ => "array"
  | .obj _ => "object"

/-- The text of a `json.UnmarshalTypeError`. -/
def typeError (j : JSON) (goType : String) : String :=
  "json: cannot unmarshal " ++ j.kind ++ " into Go value of type " ++ goType

/-- Case folding of one character of an object key, as far as it can reach the
letters of a field name: upper-case ASCII, the long s and the Kelvin sign. -/
def foldRune (c : Char) : Char :=
  if c = '\u017f' then 's' else if c = '\u212a' then 'k' else c.toLower

/-- Case folding of an object key. -/
def foldName (s : String) : List Char :=
  s.data.map foldRune

/-- The struct field an object key is stored into: the field of that name,
compared without regard to case. (The field names of every payload are
lower-case and differ after folding, so an exact match is the folded match.) -/
def matchField (names : List String) (key : String) : Option String :=
  names.find? (fun n => decide (foldName n = foldName key))

/-- Unmarshalling into a `string` that currently holds `cur`. -/
def unmarshalString (j : JSON) (cur : String) : Except String String :=
  match j with
  | .str s => .ok s
  | .null => .ok cur
  | _ => .error (typeError j "string")

/-- Unmarshalling into an `int` (64 bits) that currently holds `cur`. -/
def unmarshalInt (j : JSON) (cur : Int) : Except String Int :=
  match j with
  | .num n =>
    if -9223372036854775808 ≤ n ∧ n ≤ 9223372036854775807 then .ok n
    else .error (typeError j "int")
  | .null => .ok cur
  | _ => .error (typeError j "int")

/-- Unmarshalling the elements of a JSON array into a `[]byte` that currently
holds `cur`: a number from 0 to 255 is stored, `null` leaves the element as
it is (zero where `cur` has none). -/
def unmarshalByteElems : List JSON → List Byte → Except String (List Byte)
  | [], _ => .ok []
  | j :: js, cur =>
    match j with
    | .num n =>
      if 0 ≤ n ∧ n ≤ 255 then
        match unmarshalByteElems js cur.tail with
        | .ok rest => .ok (Fin.ofNat n.toNat :: rest)
        | .error e => .error e
      else .error (typeError j "uint8")
    | .null =>
      match unmarshalByteElems js cur.tail with
      | .ok rest => .ok (cur.headD 0 :: rest)
      | .error e => .error e
    | _ => .error (typeError j "uint8")

/-- Unmarshalling into a `[]byte` that currently holds `cur`: a string is
base64-decoded, `null` gives the nil slice. -/
def unmarshalBytes (j : JSON) (cur : List Byte) : Except String (List Byte) :=
  match j with
  | .str s => base64Decode s.data
  | .null => .ok []
  | .arr elems => unmarshalByteElems elems cur
  | _ => .error (typeError j "[]uint8")

/-- Unmarshalling the elements of a JSON array into a fresh `[]string`. -/
def unmarshalStringElems : List JSON → Except String (List String)
  | [] => .ok []
  | j :: js =>
    match unmarshalString j "" with
    | .ok s =>
      match unmarshalStringElems js with
      | .ok rest => .ok (s :: rest)
      | .error e => .error e
    | .error e => .error e

/-- Unmarshalling into a fresh `[]string` (a map element). -/
def unmarshalStringSlice (j : JSON) : Except String (List String) :=
  match j with
  | .arr elems => unmarshalStringElems elems
  | .null => .ok []
  | _ => .error (typeError j "[]string")

/-- Unmarshalling the members of a JSON object into a `map[string][]string`. -/
def unmarshalHeaderMembers :
    List (String × JSON) → GoMap String (List String) → Except String (GoMap String (List String))
  | [], cur => .ok cur
  | (k, v) :: rest, cur =>
    match unmarshalStringSlice v with
    | .ok values => unmarshalHeaderMembers rest (GoMap.set cur k values)
    | .error e => .error e

/-- Unmarshalling into a `map[string][]string` that currently holds `cur`: the
members of an object are added to the map, `null` gives the nil map. -/
def unmarshalHeaders (j : JSON) (cur : GoMap String (List String)) :
    Except String (GoMap String (List String)) :=
  match j with
  | .obj members => unmarshalHeaderMembers members cur
  | .null => .ok []
  | _ => .error (typeError j "map[string][]string")

/-- Unmarshalling the members of a JSON object into a struct, in the order of
the text: a member whose key names no field is skipped, and the first member
that does not fit its field gives the error. -/
def unmarshalMembers {σ : Type} (names : List String)
    (setField : String → JSON → σ → Except String σ) :
    List (String × JSON) → σ → Except String σ
  | [], cur => .ok cur
  | (k, v) :: rest, cur =>
    match matchField names k with
    | some name =>
      match setField name v cur with
      | .ok next => unmarshalMembers names setField rest next
      | .error e => .error e
    | none => unmarshalMembers names setField rest cur

/-- The call `json.Unmarshal(data, &v)` for a struct `v` that holds `zero`:
empty data is a syntax error, `null` leaves `v` as it is, an object is stored
member by member, and any other value is a type error. -/
def unmarshalStruct {σ : Type} (goType : String) (names : List String)
    (setField : String → JSON → σ → Except String σ) (data : Option JSON) (zero : σ) :
    Except String σ :=
  match data with
  | none => .error "unexpected end of JSON input"
  | some .null => .ok zero
  | some (.obj members) => unmarshalMembers names setField members zero
  | some j => .error (typeError j goType)

/-- The order of Go strings, byte by byte; on valid UTF-8 it is the order of the
code points. -/
def keyLess : List Char → List Char → Bool
  | _, [] => false
  | [], _ :: _ => true
  | a :: as, b :: bs =>
    if a.toNat < b.toNat then true
    else if b.toNat < a.toNat then false
    else keyLess as bs

/-- Sorted insertion of a map entry by key, for marshalling. -/
def insertByKey {ν : Type} (e : String × ν) : List (String × ν) → List (String × ν)
  | [] => [e]
  | x :: xs => if keyLess e.1.data x.1.data then e :: x :: xs else x :: insertByKey e xs

/-- The entries of a map in the order `json.Marshal` writes them: sorted by key. -/
def sortByKey {ν : Type} (m : GoMap String ν) : List (String × ν) :=
  m.foldr insertByKey []

/-- Marshalling of a `map[string][]string`. -/
def marshalHeaders (h : GoMap String (List String)) : JSON :=
  .obj ((sortByKey h).map (fun e => (e.1, JSON.arr (e.2.map JSON.str))))

/-- Marshalling of a `[]byte`. -/
def marshalBytes (b : List Byte) : JSON :=
  .str (String.mk (base64Encode b))

/-! ## internal/protocol -/

/-- The type `protocol.MessageType`. -/
abbrev MessageType := String

/-- The discriminator `register`. -/
def TypeRegister : MessageType := "register"
/-- The discriminator `registered`. -/
def TypeRegistered : MessageType := "registered"
/-- The discriminator `http_request`. -/
def TypeHTTPRequest : MessageType := "http_request"
/-- The discriminator `http_response`. -/
def TypeHTTPResponse : MessageType := "http_response"
/-- The discriminator `ping`. -/
def TypePing : MessageType := "ping"
/-- The discriminator `pong`. -/
def TypePong : MessageType := "pong"
/-- The discriminator `error`. -/
def TypeError : MessageType := "error"

/-- The seven discriminators declared by the protocol. -/
def knownTypes : List MessageType :=
  [TypeRegister, TypeRegistered, TypeHTTPRequest, TypeHTTPResponse, TypePing, TypePong,
   TypeError]

/-- The envelope `protocol.Message`; the field `Type` is `Type'` here. -/
structure Message where
  Type' : MessageType
  Data : Option JSON

/-- The payload `protocol.RegisterMessage`. -/
structure RegisterMessage where
  Domain : String
  ProtocolVersion : String
deriving DecidableEq, Repr

/-- The payload `protocol.RegisteredMessage`. -/
structure RegisteredMessage where
  TunnelID : String
  ServerURL : String
deriving DecidableEq, Repr

/-- The payload `protocol.HTTPRequestMessage`. -/
structure HTTPRequestMessage where
  RequestID : String
  Method : String
  Path : String
  Headers : GoMap String (List String)
  Body : List Byte
deriving DecidableEq, Repr

/-- The payload `protocol.HTTPResponseMessage`. -/
structure HTTPResponseMessage where
  RequestID : String
  StatusCode : Int
  Headers : GoMap String (List String)
  Body : List Byte
deriving DecidableEq, Repr

/-- The payload `protocol.ErrorMessage`. -/
structure ErrorMessage where
  Code : String
  Message : String
deriving DecidableEq, Repr

/-- The values passed as `data interface{}` to `EncodeMessage`. -/
inductive Payload where
  | nil
  | register (m : RegisterMessage)
  | registered (m : RegisteredMessage)
  | httpRequest (m : HTTPRequestMessage)
  | httpResponse (m : HTTPResponseMessage)
  | error (m : ErrorMessage)

/-- The call `json.Marshal(data)`: the fields in the order of their declaration
under their `json` names, a `body` of length zero left out (`omitempty`). -/
def Marshal : Payload → JSON
  | .nil => .null
  | .register m =>
    .obj [("domain", .str m.Domain), ("protocol_version", .str m.ProtocolVersion)]
  | .registered m =>
    .obj [("tunnel_id", .str m.TunnelID), ("server_url", .str m.ServerURL)]
  | .httpRequest m =>
    .obj ([("request_id", .str m.RequestID), ("method", .str m.Method),
           ("path", .str m.Path), ("headers", marshalHeaders m.Headers)] ++
          (if m.Body.length = 0 then [] else [("body", marshalBytes m.Body)]))
  | .httpResponse m =>
    .obj ([("request_id", .str m.RequestID), ("status_code", .num m.StatusCode),
           ("headers", marshalHeaders m.Headers)] ++
          (if m.Body.length = 0 then [] else [("body", marshalBytes m.Body)]))
  | .error m =>
    .obj [("code", .str m.Code), ("message", .str m.Message)]

/-- The function `protocol.EncodeMessage`; marshalling these payloads has no
failing case. -/
def EncodeMessage (msgType : MessageType) (data : Payload) : Except String Message :=
  .ok ⟨msgType, some (Marshal data)⟩

/-- Storing one member into a `RegisterMessage`. -/
def RegisterMessage.setField (name : String) (v : JSON) (m : RegisterMessage) :
    Except String RegisterMessage :=
  if name = "domain" then
    match unmarshalString v m.Domain with
    | .ok s => .ok { m with Domain := s }
    | .error e => .error e
  else
    match unmarshalString v m.ProtocolVersion with
    | .ok s => .ok { m with ProtocolVersion := s }
    | .error e => .error e

/-- Storing one member into a `RegisteredMessage`. -/
def RegisteredMessage.setField (name : String) (v : JSON) (m : RegisteredMessage) :
    Except String RegisteredMessage :=
  if name = "tunnel_id" then
    match unmarshalString v m.TunnelID with
    | .ok s => .ok { m with TunnelID := s }
    | .error e => .error e
  else
    match unmarshalString v m.ServerURL with
    | .ok s => .ok { m with ServerURL := s }
    | .error e => .error e

/-- Storing one member into an `HTTPRequestMessage`. -/
def HTTPRequestMessage.setField (name : String) (v : JSON) (m : HTTPRequestMessage) :
    Except String HTTPRequestMessage :=
  if name = "request_id" then
    match unmarshalString v m.RequestID with
    | .ok s => .ok { m with RequestID := s }
    | .error e => .error e
  else if name = "method" then
    match unmarshalString v m.Method with
    | .ok s => .ok { m with Method := s }
    | .error e => .error e
  else if name = "path" then
    match unmarshalString v m.Path with
    | .ok s => .ok { m with Path := s }
    | .error e => .error e
  else if name = "headers" then
    match unmarshalHeaders v m.Headers with
    | .ok h => .ok { m with Headers := h }
    | .error e => .error e
  else
    match unmarshalBytes v m.Body with
    | .ok b => .ok { m with Body := b }
    | .error e => .error e

/-- Storing one member into an `HTTPResponseMessage`. -/
def HTTPResponseMessage.setField (name : String) (v : JSON) (m : HTTPResponseMessage) :
    Except String HTTPResponseMessage :=
  if name = "request_id" then
    match unmarshalString v m.RequestID with
    | .ok s => .ok { m with RequestID := s }
    | .error e => .error e
  else if name = "status_code" then
    match unmarshalInt v m.StatusCode with
    | .ok n => .ok { m with StatusCode := n }
    | .error e => .error e
  else if name = "headers" then
    match unmarshalHeaders v m.Headers with
    | .ok h => .ok { m with Headers := h }
    | .error e => .error e
  else
    match unmarshalBytes v m.Body with
    | .ok b => .ok { m with Body := b }
    | .error e => .error e

/-- Storing one member into an `ErrorMessage`. -/
def ErrorMessage.setField (name : String) (v : JSON) (m : ErrorMessage) :
    Except String ErrorMessage :=
  if name = "code" then
    match unmarshalString v m.Code with
    | .ok s => .ok { m with Code := s }
    | .error e => .error e
  else
    match unmarshalString v m.Message with
    | .ok s => .ok { m with Message := s }
    | .error e => .error e

/-- The function `protocol.DecodeRegister`. -/
def DecodeRegister (msg : Message) : Except String RegisterMessage :=
  match unmarshalStruct "protocol.RegisterMessage" ["domain", "protocol_version"]
      RegisterMessage.setField msg.Data ⟨"", ""⟩ with
  | .error err => .error ("failed to decode register message: " ++ err)
  | .ok register => .ok register

/-- The function `protocol.DecodeRegistered`. -/
def DecodeRegistered (msg : Message) : Except String RegisteredMessage :=
  match unmarshalStruct "protocol.RegisteredMessage" ["tunnel_id", "server_url"]
      RegisteredMessage.setField msg.Data ⟨"", ""⟩ with
  | .error err => .error ("failed to decode registered message: " ++ err)
  | .ok registered => .ok registered

/-- The function `protocol.DecodeHTTPRequest`. -/
def DecodeHTTPRequest (msg : Message) : Except String HTTPRequestMessage :=
  match unmarshalStruct "protocol.HTTPRequestMessage"
      ["request_id", "method", "path", "headers", "body"]
      HTTPRequestMessage.setField msg.Data ⟨"", "", "", [], []⟩ with
  | .error err => .error ("failed to decode HTTP request message: " ++ err)
  | .ok req => .ok req

/-- The function `protocol.DecodeHTTPResponse`. -/
def DecodeHTTPResponse (msg : Message) : Except String HTTPResponseMessage :=
  match unmarshalStruct "protocol.HTTPResponseMessage"
      ["request_id", "status_code", "headers", "body"]
      HTTPResponseMessage.setField msg.Data ⟨"", 0, [], []⟩ with
  | .error err => .error ("failed to decode HTTP response message: " ++ err)
  | .ok resp => .ok resp

/-- The function `protocol.DecodeError`. -/
def DecodeError (msg : Message) : Except String ErrorMessage :=
  match unmarshalStruct "protocol.ErrorMessage" ["code", "message"]
      ErrorMessage.setField msg.Data ⟨"", ""⟩ with
  | .error err => .error ("failed to decode error message: " ++ err)
  | .ok errMsg => .ok errMsg

/-! ## Which data a Decode function accepts -/

/-- Whether a JSON value can be stored into a `string`: a string or `null`. -/
def JSON.fitsString : JSON → Bool
  | .str _ => true
  | .null => true
  | _ => false

/-- Whether a JSON value can be stored into an `int`: an integer literal in
the 64-bit range, or `null`. -/
def JSON.fitsInt : JSON → Bool
  | .num n => decide (-9223372036854775808 ≤ n ∧ n ≤ 9223372036854775807)
  | .null => true
  | _ => false

/-- Whether a JSON value can be stored into one byte: an integer literal from 0
to 255, or `null`. -/
def JSON.fitsByteElem : JSON → Bool
  | .num n => decide (0 ≤ n ∧ n ≤ 255)
  | .null => true
  | _ => false

/-- Whether a JSON value can be stored into a `[]byte`: a string that is
standard base64, an array of byte values, or `null`. -/
def JSON.fitsBytes : JSON → Bool
  | .str s =>
    (base64DecodeGroups (s.data.filter (fun c => decide (c ≠ '\r' ∧ c ≠ '\n')))).isSome
  | .arr elems => elems.all JSON.fitsByteElem
  | .null => true
  | _ => false

/-- Whether a JSON value can be stored into a `[]string`: an array of strings
and `null`s, or `null`. -/
def JSON.fitsStringSlice : JSON → Bool
  | .arr elems => elems.all JSON.fitsString
  | .null => true
  | _ => false

/-- Whether a JSON value can be stored into a `map[string][]string`: an object
whose values all fit a `[]string`, or `null`. -/
def JSON.fitsHeaders : JSON → Bool
  | .obj members => members.all (fun e => e.2.fitsStringSlice)
  | .null => true
  | _ => false

/-- Whether a value fits the field `name` of a payload whose fields are all
strings (`register`, `registered`, `error`). -/
def fitsStringField (_name : String) (v : JSON) : Bool :=
  v.fitsString

/-- Whether a value fits the field `name` of an `http_request` payload. -/
def fitsHTTPRequestField (name : String) (v : JSON) : Bool :=
  if name = "request_id" ∨ name = "method" ∨ name = "path" then v.fitsString
  else if name = "headers" then v.fitsHeaders
  else v.fitsBytes

/-- Whether a value fits the field `name` of an `http_response` payload. -/
def fitsHTTPResponseField (name : String) (v : JSON) : Bool :=
  if name = "request_id" then v.fitsString
  else if name = "status_code" then v.fitsInt
  else if name = "headers" then v.fitsHeaders
  else v.fitsBytes

/-- Whether the data of an envelope fits a payload with the fields `names`:
it is `null`, or an object in which every member whose key names a field,
letter case aside, holds a value that fits that field. Missing data and
values of any other kind do not fit. -/
def fitsPayload (names : List String) (fits : String → JSON → Bool) : Option JSON → Bool
  | some .null => true
  | some (.obj members) =>
    members.all (fun e =>
      match matchField names e.1 with
      | some name => fits name e.2
      | none => true)
  | _ => false

/-! ## Effects

A websocket, a response channel and a timer are named by numbers. What a
handler does to them is recorded as a list of events, oldest first; what the
environment does to a handler (the frames it receives, the outcome of a write,
the random identifiers) is an argument of the handler. -/

/-- One effect of a handler on the world outside the manager's own state. -/
inductive Event where
  /-- The call `conn.WriteJSON(msg)`; `none` is the nil envelope. -/
  | write (conn : Nat) (msg : Option Message)
  /-- The call `conn.Close()` on a websocket. -/
  | close (conn : Nat)
  /-- The call `pr.Timeout.Stop()`. -/
  | timerStop (timer : Nat)
  /-- The send `pr.ResponseChan <- resp`. -/
  | deliver (chan : Nat) (resp : HTTPResponseMessage)
  /-- The call `close(pr.ResponseChan)`. -/
  | chanClose (chan : Nat)
  /-- The call `c.mu.Lock()` of the endpoint that wraps websocket `conn`. -/
  | lock (conn : Nat)
  /-- The call `c.mu.Unlock()` of the endpoint that wraps websocket `conn`. -/
  | unlock (conn : Nat)

/-! ## internal/server/tunnel -/

/-- The constructor `tunnel.NewConnection`. -/
def NewConnection (domain tunnelID : String) (conn : Nat) : Connection :=
  ⟨domain, tunnelID, conn⟩

/-- The method `Connection.SendMessage`, given the outcome of the write: the
write is made between `c.mu.Lock()` and the deferred `c.mu.Unlock()`. -/
def Connection.SendMessage (c : Connection) (msg : Message) (written : Except String Unit) :
    Except String Unit × List Event :=
  match written with
  | .error err =>
    (.error ("failed to send message: " ++ err),
     [.lock c.conn, .write c.conn (some msg), .unlock c.conn])
  | .ok () => (.ok (), [.lock c.conn, .write c.conn (some msg), .unlock c.conn])

/-- The method `Connection.SendHTTPRequest`, given the outcome of the write. -/
def Connection.SendHTTPRequest (c : Connection) (req : HTTPRequestMessage)
    (written : Except String Unit) : Except String Unit × List Event :=
  match EncodeMessage TypeHTTPRequest (.httpRequest req) with
  | .error err => (.error ("failed to encode HTTP request: " ++ err), [])
  | .ok msg => c.SendMessage msg written

/-! ## internal/server/wsmanager -/

/-- The record `wsmanager.PendingRequest`: its response channel and its timer. -/
structure PendingRequest where
  ResponseChan : Nat
  Timeout : Nat
deriving DecidableEq, Repr

/-- The state of `wsmanager.Manager`: the registry it points to and the
`pendingRequests` map. -/
structure Manager where
  registry : Registry
  pendingRequests : GoMap String PendingRequest
deriving DecidableEq, Repr

/-- The constructor `wsmanager.New`. -/
def Manager.New (reg : Registry) : Manager :=
  ⟨reg, []⟩

/-- The method `Manager.sendError`; the outcome of the write is dropped. -/
def Manager.sendError (conn : Nat) (code message : String) : List Event :=
  match EncodeMessage TypeError (.error ⟨code, message⟩) with
  | .ok errMsg => [.write conn (some errMsg)]
  | .error _ => [.write conn none]

/-- The method `Manager.handleHTTPResponse`. -/
def Manager.handleHTTPResponse (m : Manager) (msg : Message) : Manager × List Event :=
  match DecodeHTTPResponse msg with
  | .error _ => (m, [])
  | .ok resp =>
    match GoMap.get m.pendingRequests resp.RequestID with
    | some pr =>
      ({ m with pendingRequests := GoMap.delete m.pendingRequests resp.RequestID },
       [.timerStop pr.Timeout, .deliver pr.ResponseChan resp, .chanClose pr.ResponseChan])
    | none => (m, [])

/-- The method `Manager.handlePing`; the outcome of the write is only logged,
so the events are those of `SendMessage` whatever it is. -/
def Manager.handlePing (tunnelConn : Connection) : List Event :=
  match EncodeMessage TypePong .nil with
  | .ok pongMsg => (tunnelConn.SendMessage pongMsg (.ok ())).2
  | .error _ => [.lock tunnelConn.conn, .write tunnelConn.conn none, .unlock tunnelConn.conn]

/-- The code of the error frame an event writes, if it writes one: what the
peer reads from the frame with `DecodeError`. -/
def Event.errorCode : Event → Option String
  | .write _ (some msg) =>
    if msg.Type' = TypeError then
      match DecodeError msg with
      | .ok errMsg => some errMsg.Code
      | .error _ => none
    else none
  | _ => none

/-- Whether an event writes a `registered` frame. -/
def Event.isRegistered : Event → Bool
  | .write _ (some msg) => decide (msg.Type' = TypeRegistered)
  | _ => false

/-- A run of a handler, as far as it has got: the manager and the events so
far, and whether the handler has returned (it has not while it waits for a
frame that has not come). -/
structure Run where
  manager : Manager
  events : List Event
  returned : Bool

/-- The method `Manager.handleConnection` on the results of its successive
`ReadMessage` calls: it returns at the first failed read, and has not returned
when every read so far succeeded. -/
def Manager.handleConnection (m : Manager) (tunnelConn : Connection) :
    List (Except String Message) → Run
  | [] => ⟨m, [], false⟩
  | .error _ :: _ => ⟨m, [], true⟩
  | .ok msg :: reads =>
    if msg.Type' = TypeHTTPResponse then
      let run := Manager.handleConnection (m.handleHTTPResponse msg).1 tunnelConn reads
      ⟨run.manager, (m.handleHTTPResponse msg).2 ++ run.events, run.returned⟩
    else if msg.Type' = TypePing then
      let run := Manager.handleConnection m tunnelConn reads
      ⟨run.manager, Manager.handlePing tunnelConn ++ run.events, run.returned⟩
    else
      Manager.handleConnection m tunnelConn reads

/-- What the environment supplies to one run of `HandleWebSocket`. -/
structure Accept where
  /-- The result of `upgrader.Upgrade`: the new websocket. -/
  upgrade : Except String Nat
  /-- The result of the first `conn.ReadJSON`. -/
  first : Except String Message
  /-- The value of `generateTunnelID()`. -/
  tunnelID : String
  /-- The outcome of writing the `registered` frame. -/
  registeredWrite : Except String Unit
  /-- The results of the reads made while serving. -/
  reads : List (Except String Message)

/-- The method `Manager.HandleWebSocket`. -/
def Manager.HandleWebSocket (m : Manager) (env : Accept) : Run :=
  match env.upgrade with
  | .error _ => ⟨m, [], true⟩
  | .ok conn =>
    match env.first with
    | .error _ => ⟨m, [.close conn], true⟩
    | .ok msg =>
      if msg.Type' ≠ TypeRegister then
        ⟨m, Manager.sendError conn "INVALID_MESSAGE" "Expected registration message"
          ++ [.close conn], true⟩
      else
        match DecodeRegister msg with
        | .error err => ⟨m, Manager.sendError conn "DECODE_ERROR" err ++ [.close conn], true⟩
        | .ok registerMsg =>
          let tunnelID := env.tunnelID
          let tunnelConn := NewConnection registerMsg.Domain tunnelID conn
          match m.registry.Register registerMsg.Domain tunnelConn with
          | (.error err, reg) =>
            ⟨{ m with registry := reg },
              Manager.sendError conn "REGISTRATION_FAILED" err ++ [.close conn], true⟩
          | (.ok (), reg) =>
            match EncodeMessage TypeRegistered
                (.registered ⟨tunnelID, "https://" ++ registerMsg.Domain⟩) with
            | .error _ =>
              ⟨{ m with registry := reg.Unregister registerMsg.Domain }, [.close conn], true⟩
            | .ok registeredMsg =>
              match env.registeredWrite with
              | .error _ =>
                ⟨{ m with registry := reg.Unregister registerMsg.Domain },
                  [.write conn (some registeredMsg), .close conn], true⟩
              | .ok () =>
                let run := Manager.handleConnection { m with registry := reg } tunnelConn
                  env.reads
                if run.returned then
                  ⟨{ run.manager with
                      registry := run.manager.registry.Unregister registerMsg.Domain },
                    [.write conn (some registeredMsg)] ++ run.events ++ [.close conn], true⟩
                else
                  ⟨run.manager, [.write conn (some registeredMsg)] ++ run.events, false⟩

/-- Which branch of the `select` in `SendHTTPRequest` fires. -/
inductive WaitOutcome where
  | response (resp : HTTPResponseMessage)
  | timeout

/-- What the environment supplies to one run of `SendHTTPRequest`. -/
structure Forward where
  /-- The new response channel. -/
  chan : Nat
  /-- The new timer. -/
  timer : Nat
  /-- The outcome of writing the `http_request` frame. -/
  written : Except String Unit
  /-- What the other goroutines have done to the manager by the time the
  `select` fires. -/
  others : Manager → Manager
  /-- The branch of the `select` that fires. -/
  wait : WaitOutcome

/-- The method `Manager.SendHTTPRequest`. -/
def Manager.SendHTTPRequest (m : Manager) (domain : String) (req : HTTPRequestMessage)
    (env : Forward) : Except String HTTPResponseMessage × Manager × List Event :=
  match m.registry.GetTunnel domain with
  | none => (.error ("no tunnel found for domain: " ++ domain), m, [])
  | some tunnelConn =>
    let pr : PendingRequest := ⟨env.chan, env.timer⟩
    let m1 := { m with pendingRequests := GoMap.set m.pendingRequests req.RequestID pr }
    match tunnelConn.SendHTTPRequest req env.written with
    | (.error err, events) =>
      (.error ("failed to send request to tunnel: " ++ err),
       { m1 with pendingRequests := GoMap.delete m1.pendingRequests req.RequestID },
       events ++ [.timerStop env.timer])
    | (.ok (), events) =>
      let m2 := env.others m1
      match env.wait with
      | .response resp => (.ok resp, m2, events)
      | .timeout =>
        (.error "timeout waiting for response",
         { m2 with pendingRequests := GoMap.delete m2.pendingRequests req.RequestID }, events)

/-! ## The pending table over time -/

/-- The removal `m.pendingRequests.Delete(requestID)` that `SendHTTPRequest`
makes when its deadline fires. -/
def Manager.expire (m : Manager) (requestID : String) : Manager :=
  { m with pendingRequests := GoMap.delete m.pendingRequests requestID }

/-- One thing that happens to the pending table once its entries are
installed: an `http_response` frame arrives, or the deadline of a request
fires. -/
inductive PendingOp where
  | response (msg : Message)
  | expiry (requestID : String)

/-- The manager and the events after one arrival or expiry. -/
def PendingOp.apply (m : Manager) : PendingOp → Manager × List Event
  | .response msg => m.handleHTTPResponse msg
  | .expiry requestID => (m.expire requestID, [])

/-- The manager and the events after a sequence of arrivals and expiries. -/
def PendingOp.run (m : Manager) : List PendingOp → Manager × List Event
  | [] => (m, [])
  | op :: ops =>
    ((PendingOp.run (PendingOp.apply m op).1 ops).1,
     (PendingOp.apply m op).2 ++ (PendingOp.run (PendingOp.apply m op).1 ops).2)

/-- Whether an event delivers a response for request id `requestID`. -/
def Event.deliversFor (requestID : String) : Event → Bool
  | .deliver _ resp => decide (resp.RequestID = requestID)
  | _ => false

/-- The status codes of the responses a list of events delivers. -/
def deliveredStatus : List Event → List Int
  | [] => []
  | .deliver _ resp :: rest => resp.StatusCode :: deliveredStatus rest
  | _ :: rest => deliveredStatus rest

/-- Whether every write in a list of events is made while the lock of the
endpoint of its websocket is held; `held` lists the websockets whose lock is
held at the start. -/
def writesUnderLock (held : List Nat) : List Event → Bool
  | [] => true
  | .lock conn :: rest => writesUnderLock (conn :: held) rest
  | .unlock conn :: rest => writesUnderLock (held.erase conn) rest
  | .write conn _ :: rest => decide (conn ∈ held) && writesUnderLock held rest
  | _ :: rest => writesUnderLock held rest

/-! ## Strings as bytes -/

/-- The UTF-8 encoding of one character. -/
def utf8EncodeChar (c : Char) : List Byte :=
  let v := c.toNat
  if v < 128 then [Fin.ofNat v]
  else if v < 2048 then [Fin.ofNat (192 + v / 64), Fin.ofNat (128 + v % 64)]
  else if v < 65536 then
    [Fin.ofNat (224 + v / 4096), Fin.ofNat (128 + v / 64 % 64), Fin.ofNat (128 + v % 64)]
  else
    [Fin.ofNat (240 + v / 262144), Fin.ofNat (128 + v / 4096 % 64),
     Fin.ofNat (128 + v / 64 % 64), Fin.ofNat (128 + v % 64)]

/-- The UTF-8 encoding of a list of characters. -/
def utf8EncodeChars : List Char → List Byte
  | [] => []
  | c :: cs => utf8EncodeChar c ++ utf8EncodeChars cs

/-- The conversion `[]byte(s)`. -/
def bytesOfString (s : String) : List Byte :=
  utf8EncodeChars s.data

/-! ## internal/server/httphandler -/

/-- The fields of `http.Request` that `ServeHTTP` reads. -/
structure Request where
  Host : String
  Method : String
  /-- The value of `r.URL.RequestURI()`. -/
  RequestURI : String
  Header : GoMap String (List String)
  /-- The result of `io.ReadAll(r.Body)`. -/
  Body : Except String (List Byte)

/-- One piece of body accepted by an `http.ResponseWriter`: text printed with
`fmt.Fprintln`, or the bytes passed to `Write`. -/
inductive Written where
  | text (s : String)
  | bytes (b : List Byte)
deriving DecidableEq, Repr

/-- The number of bytes of a piece of body. -/
def Written.length : Written → Nat
  | .text s => (bytesOfString s).length
  | .bytes b => b.length

/-- The value of a run of decimal digits after `acc`; `none` when a character
is no digit. -/
def parseDigits (acc : Nat) : List Char → Option Nat
  | [] => some acc
  | c :: cs => if c.isDigit then parseDigits (acc * 10 + (c.toNat - 48)) cs else none

/-- The function `strconv.ParseInt(s, 10, 64)`: an optional sign and at least
one decimal digit, within the range of a 64-bit integer; `none` is an error. -/
def ParseInt (s : String) : Option Int :=
  match s.data with
  | [] => none
  | c :: cs =>
    if c = '-' then
      if cs = [] then none
      else
        match parseDigits 0 cs with
        | some n => if n ≤ 9223372036854775808 then some (-(n : Int)) else none
        | none => none
    else if c = '+' then
      if cs = [] then none
      else
        match parseDigits 0 cs with
        | some n => if n ≤ 9223372036854775807 then some (n : Int) else none
        | none => none
    else
      match parseDigits 0 (c :: cs) with
      | some n => if n ≤ 9223372036854775807 then some (n : Int) else none
      | none => none

/-- The length a header map declares: the first value under `Content-Length`,
when it is the text of an integer that is not negative. -/
def declaredLength (h : GoMap String (List String)) : Option Int :=
  match GoMap.get h "Content-Length" with
  | some (cl :: _) =>
    match ParseInt cl with
    | some v => if 0 ≤ v then some v else none
    | none => none
  | _ => none

/-- The state of the server's `http.ResponseWriter` (the writer of the
HTTP/1 server), as far as a handler drives it: the handler's header map, the
informational (1xx) responses sent, the status of the response once its header
is written, the length declared by the header map at that moment, the number
of bytes passed to `Write` since, the pieces of body accepted, and whether a
call on it has panicked. What the server puts on the wire from this state is
not modelled. -/
structure ResponseWriter where
  header : GoMap String (List String)
  informational : List Int
  status : Option Int
  contentLength : Option Int
  written : Int
  body : List Written
  panicked : Bool
deriving DecidableEq, Repr

/-- The `http.ResponseWriter` the server hands to a handler. -/
def ResponseWriter.empty : ResponseWriter :=
  ⟨[], [], none, none, 0, [], false⟩

/-- The method `ResponseWriter.WriteHeader` of the server: a call after the
header is written is ignored, a code below 100 or above 999 panics, a 1xx
code other than 101 sends an informational response, and any other code
becomes the status of the response, at which moment the length declared by
the header map is noted. -/
def ResponseWriter.WriteHeader (w : ResponseWriter) (code : Int) : ResponseWriter :=
  if w.status.isSome then w
  else if code < 100 ∨ code > 999 then { w with panicked := true }
  else if 100 ≤ code ∧ code ≤ 199 ∧ code ≠ 101 then
    { w with informational := w.informational ++ [code] }
  else { w with status := some code, contentLength := declaredLength w.header }

/-- The function `bodyAllowedForStatus`. -/
def bodyAllowedForStatus (status : Int) : Bool :=
  if 100 ≤ status ∧ status ≤ 199 then false
  else if status = 204 then false
  else if status = 304 then false
  else true

/-- The method `ResponseWriter.Write` of the server: the header is written
with status 200 first if it is not written yet; an empty piece changes
nothing more; a piece is refused when the status allows no body
(`ErrBodyNotAllowed`) and, its length once counted, when the count exceeds the
declared length (`ErrContentLength`); otherwise it is accepted. -/
def ResponseWriter.Write (w : ResponseWriter) (piece : Written) : ResponseWriter :=
  let w1 := if w.status.isSome then w else ResponseWriter.WriteHeader w 200
  match w1.status with
  | some status =>
    if piece.length = 0 then w1
    else if bodyAllowedForStatus status then
      let w2 := { w1 with written := w1.written + piece.length }
      match w2.contentLength with
      | some declared =>
        if w2.written > declared then w2 else { w2 with body := w2.body ++ [piece] }
      | none => { w2 with body := w2.body ++ [piece] }
    else w1
  | none => w1

/-- The token characters of a header field name (`validHeaderFieldByte`). -/
def validHeaderFieldByte (c : Char) : Bool :=
  c.isAlphanum || c.toNat ∈ [33, 35, 36, 37, 38, 39, 42, 43, 45, 46, 94, 95, 96, 124, 126]

/-- The letter case of a canonical header key: upper at the start and after a
hyphen, lower elsewhere. -/
def canonicalCase : Bool → List Char → List Char
  | _, [] => []
  | upper, c :: cs =>
    let c' := if upper then c.toUpper else c.toLower
    c' :: canonicalCase (c' = '-') cs

/-- The function `textproto.CanonicalMIMEHeaderKey`: a key with a character
that is no token character is returned as it is. -/
def CanonicalMIMEHeaderKey (s : String) : String :=
  if s.data.all validHeaderFieldByte then String.mk (canonicalCase true s.data) else s

/-- The method `http.Header.Add`. -/
def HeaderAdd (h : GoMap String (List String)) (key value : String) :
    GoMap String (List String) :=
  let k := CanonicalMIMEHeaderKey key
  match GoMap.get h k with
  | some values => GoMap.set h k (values ++ [value])
  | none => GoMap.set h k [value]

/-- The method `http.Header.Values`: the values stored under the canonical
form of `key`, none when there is no entry. -/
def HeaderValues (h : GoMap String (List String)) (key : String) : List String :=
  (GoMap.get h (CanonicalMIMEHeaderKey key)).getD []

/-- The values that the entries of a header map hold under names whose
canonical form is `name`, in the order of the entries. -/
def valuesUnder (name : String) : List (String × List String) → List String
  | [] => []
  | e :: rest =>
    (if CanonicalMIMEHeaderKey e.1 = name then e.2 else []) ++ valuesUnder name rest

/-- The function `http.Error`. -/
def httpError (w : ResponseWriter) (error : String) (code : Int) : ResponseWriter :=
  let h := GoMap.delete w.header "Content-Length"
  let h := GoMap.set h "Content-Type" ["text/plain; charset=utf-8"]
  let h := GoMap.set h "X-Content-Type-Options" ["nosniff"]
  let w1 := ResponseWriter.WriteHeader { w with header := h } code
  if w1.panicked then w1 else w1.Write (.text (error ++ "\n"))

/-- The status `http.StatusBadRequest`. -/
def StatusBadRequest : Int := 400
/-- The status `http.StatusInternalServerError`. -/
def StatusInternalServerError : Int := 500
/-- The status `http.StatusServiceUnavailable`. -/
def StatusServiceUnavailable : Int := 503
/-- The status `http.StatusGatewayTimeout`. -/
def StatusGatewayTimeout : Int := 504

/-- The part of `Handler.ServeHTTP` that follows the call of
`SendHTTPRequest`: the outcome of the forward is written to `w`. -/
def respond (w : ResponseWriter) (domain : String)
    (outcome : Except String HTTPResponseMessage) : ResponseWriter :=
  match outcome with
  | .error err =>
    if err = "no tunnel found for domain: " ++ domain then
      httpError w ("No tunnel registered for domain: " ++ domain) StatusServiceUnavailable
    else if err = "timeout waiting for response" then
      httpError w "Gateway timeout" StatusGatewayTimeout
    else
      httpError w "Internal server error" StatusInternalServerError
  | .ok resp =>
    let h := resp.Headers.foldl
      (fun acc e => e.2.foldl (fun acc' value => HeaderAdd acc' e.1 value) acc) w.header
    let w1 := ResponseWriter.WriteHeader { w with header := h } resp.StatusCode
    if w1.panicked then w1
    else if resp.Body.length > 0 then w1.Write (.bytes resp.Body) else w1

/-- The method `Handler.ServeHTTP`, given the value of `generateRequestID()`
and what the environment supplies to the forward; the server hands the
handler a fresh `http.ResponseWriter`. -/
def ServeHTTP (m : Manager) (r : Request) (requestID : String) (env : Forward) :
    ResponseWriter × Manager × List Event :=
  let w := ResponseWriter.empty
  let domain := r.Host
  if domain = "" then
    (httpError w "Missing Host header" StatusBadRequest, m, [])
  else
    match r.Body with
    | .error _ => (httpError w "Failed to read request body" StatusInternalServerError, m, [])
    | .ok body =>
      let req : HTTPRequestMessage :=
        { RequestID := requestID, Method := r.Method, Path := r.RequestURI,
          Headers := r.Header, Body := body }
      match m.SendHTTPRequest domain req env with
      | (outcome, m', events) => (respond w domain outcome, m', events)

/-! ## internal/client/proxy -/

/-- The record `proxy.Proxy`; its HTTP client has no timeout. -/
structure Proxy where
  localURL : String
deriving DecidableEq, Repr

/-- The constructor `proxy.New`. -/
def Proxy.New (localURL : String) : Proxy :=
  ⟨localURL⟩

/-- The fields of the `http.Request` that `ProxyRequest` builds; `URL` is the
text that was parsed. -/
structure OutRequest where
  Method : String
  URL : String
  Header : GoMap String (List String)
  Body : List Byte
deriving DecidableEq, Repr

/-- The fields of the `http.Response` that `ProxyRequest` reads; `Body` is the
result of `io.ReadAll(httpResp.Body)`. -/
structure LocalResponse where
  StatusCode : Int
  Header : GoMap String (List String)
  Body : Except String (List Byte)

/-- What the environment supplies to one run of `ProxyRequest`: the outcome of
`url.Parse` on a text (the parser is not modelled), and the outcome of
`p.client.Do` on a request. -/
structure Loopback where
  parse : String → Except String Unit
  roundTrip : OutRequest → Except String LocalResponse

/-- The function `validMethod` of `net/http`: a non-empty token. -/
def validMethod (method : String) : Bool :=
  decide (method.data.length > 0) && method.data.all validHeaderFieldByte

/-- The function `http.NewRequest`: an empty method is `GET`, an invalid method
or a text that does not parse is an error, and the request starts with an
empty header. The quoting of the method in the error text is abbreviated. -/
def NewRequest (method url : String) (body : List Byte) (env : Loopback) :
    Except String OutRequest :=
  let method' := if method = "" then "GET" else method
  if validMethod method' then
    match env.parse url with
    | .error err => .error err
    | .ok () => .ok ⟨method', url, [], body⟩
  else .error ("net/http: invalid method \"" ++ method' ++ "\"")

/-- The request `ProxyRequest` builds from `http.NewRequest`'s request
`httpReq0`: the values of every header name of `req` are added to its header
with `Header.Add`, in the order of the lists. -/
def withHeaders (httpReq0 : OutRequest) (req : HTTPRequestMessage) : OutRequest :=
  { httpReq0 with
    Header := req.Headers.foldl
      (fun acc e => e.2.foldl (fun acc' value => HeaderAdd acc' e.1 value) acc)
      httpReq0.Header }

/-- The method `Proxy.ProxyRequest`: what it returns, and the request it has
passed to the HTTP client, if it got that far. -/
def Proxy.ProxyRequest (p : Proxy) (req : HTTPRequestMessage) (env : Loopback) :
    Except String HTTPResponseMessage × Option OutRequest :=
  let targetURL := p.localURL ++ req.Path
  match NewRequest req.Method targetURL req.Body env with
  | .error err => (.error ("failed to create request: " ++ err), none)
  | .ok httpReq0 =>
    let httpReq : OutRequest :=
      { httpReq0 with
        Header := req.Headers.foldl
          (fun acc e => e.2.foldl (fun acc' value => HeaderAdd acc' e.1 value) acc)
          httpReq0.Header }
    match env.roundTrip httpReq with
    | .error err => (.error ("failed to execute request: " ++ err), some httpReq)
    | .ok httpResp =>
      match httpResp.Body with
      | .error err => (.error ("failed to read response body: " ++ err), some httpReq)
      | .ok respBody =>
        (.ok ⟨req.RequestID, httpResp.StatusCode, httpResp.Header, respBody⟩, some httpReq)

/-! ## internal/client/wsclient -/

/-- The record `wsclient.Client`; `conn` is `none` while the pointer is nil. -/
structure Client where
  serverURL : String
  domain : String
  proxy : Proxy
  conn : Option Nat
  tunnelID : String
deriving DecidableEq, Repr

/-- The constructor `wsclient.New`. -/
def Client.New (serverURL domain : String) (localPort : Int) : Client :=
  ⟨serverURL, domain, Proxy.New ("http://localhost:" ++ toString localPort), none, ""⟩

/-- How a call ends: it returns its `error` result, or it panics. -/
inductive Completion where
  | returned (err : Except String Unit)
  | panicked (reason : String)
deriving DecidableEq, Repr

/-- What the environment supplies to one run of `Connect`: the result of the
dial, the outcome of writing the `register` frame, and the result of reading
the reply. -/
structure Dial where
  dial : Except String Nat
  written : Except String Unit
  reply : Except String Message

/-- The method `Client.Connect`: how it ends, the client afterwards, and its
events. `DecodeError` returns a nil payload with its error, and the fields of
the payload are read without a look at that error. -/
def Client.Connect (c : Client) (env : Dial) : Completion × Client × List Event :=
  match env.dial with
  | .error err => (.returned (.error ("failed to connect to server: " ++ err)), c, [])
  | .ok conn =>
    let c1 := { c with conn := some conn }
    match EncodeMessage TypeRegister (.register ⟨c1.domain, "1.0"⟩) with
    | .error err =>
      (.returned (.error ("failed to encode register message: " ++ err)), c1, [.close conn])
    | .ok registerMsg =>
      match env.written with
      | .error err =>
        (.returned (.error ("failed to send register message: " ++ err)), c1,
         [.write conn (some registerMsg), .close conn])
      | .ok () =>
        match env.reply with
        | .error err =>
          (.returned (.error ("failed to read registration response: " ++ err)), c1,
           [.write conn (some registerMsg), .close conn])
        | .ok msg =>
          if msg.Type' = TypeError then
            match DecodeError msg with
            | .ok errMsg =>
              (.returned
                (.error ("registration failed: " ++ errMsg.Code ++ " - " ++ errMsg.Message)),
               c1, [.write conn (some registerMsg), .close conn])
            | .error _ =>
              (.panicked "runtime error: invalid memory address or nil pointer dereference",
               c1, [.write conn (some registerMsg), .close conn])
          else if msg.Type' ≠ TypeRegistered then
            (.returned (.error ("unexpected message type: " ++ msg.Type')), c1,
             [.write conn (some registerMsg), .close conn])
          else
            match DecodeRegistered msg with
            | .error err =>
              (.returned (.error ("failed to decode registered message: " ++ err)), c1,
               [.write conn (some registerMsg), .close conn])
            | .ok registered =>
              (.returned (.ok ()), { c1 with tunnelID := registered.TunnelID },
               [.write conn (some registerMsg)])

/-- A run of a client worker: its events, the request it has passed to the
local application, if any, and whether it has panicked. -/
structure ClientRun where
  events : List Event
  sent : Option OutRequest
  panicked : Bool

/-- The method `Client.handleHTTPRequest`; the outcome of the write is only
logged. A write on a nil websocket panics. -/
def Client.handleHTTPRequest (c : Client) (msg : Message) (env : Loopback) : ClientRun :=
  match DecodeHTTPRequest msg with
  | .error _ => ⟨[], none, false⟩
  | .ok req =>
    let resp : HTTPResponseMessage :=
      match (c.proxy.ProxyRequest req env).1 with
      | .ok resp => resp
      | .error err =>
        { RequestID := req.RequestID, StatusCode := 502, Headers := [],
          Body := bytesOfString ("Bad Gateway: " ++ err) }
    match EncodeMessage TypeHTTPResponse (.httpResponse resp) with
    | .error _ => ⟨[], (c.proxy.ProxyRequest req env).2, false⟩
    | .ok respMsg =>
      match c.conn with
      | some conn => ⟨[.write conn (some respMsg)], (c.proxy.ProxyRequest req env).2, false⟩
      | none => ⟨[], (c.proxy.ProxyRequest req env).2, true⟩

/-- The method `Client.heartbeat` over the ticks of its ticker, given the
outcome of the write made at each tick: it returns at the first failed write. -/
def Client.heartbeat (c : Client) : List (Except String Unit) → ClientRun
  | [] => ⟨[], none, false⟩
  | written :: ticks =>
    match c.conn with
    | none => ⟨[], none, true⟩
    | some conn =>
      let ping : Event :=
        match EncodeMessage TypePing .nil with
        | .ok pingMsg => .write conn (some pingMsg)
        | .error _ => .write conn none
      match written with
      | .error _ => ⟨[ping], none, false⟩
      | .ok () =>
        ⟨ping :: (Client.heartbeat c ticks).events, none, (Client.heartbeat c ticks).panicked⟩

/-! # Theorems -/

/-! ## Go maps -/

namespace GoMap

variable {κ ν : Type} [DecidableEq κ]

theorem get_delete_self (m : GoMap κ ν) (k : κ) : get (delete m k) k = none := by
  induction m with
  | nil => rfl
  | cons e rest ih =>
    obtain ⟨k', v⟩ := e
    by_cases h : k' = k
    · simpa [delete, List.filter_cons, h] using ih
    · simpa [delete, List.filter_cons, h, get] using ih

theorem get_set_self (m : GoMap κ ν) (k : κ) (v : ν) : get (set m k v) k = some v := by
  simp [set, get]

theorem mem_keys_iff_get (m : GoMap κ ν) (k : κ) : k ∈ keys m ↔ (get m k).isSome = true := by
  induction m with
  | nil => simp [keys, get]
  | cons e rest ih =>
    obtain ⟨k', v⟩ := e
    by_cases h : k' = k
    · simp [keys, get, h]
    · have : ¬ k = k' := fun h' => h h'.symm
      simpa [keys, get, h, this] using ih

theorem get_eq_none_iff (m : GoMap κ ν) (k : κ) : get m k = none ↔ k ∉ keys m := by
  rw [mem_keys_iff_get]
  cases get m k <;> simp

theorem keys_delete (m : GoMap κ ν) (k : κ) :
    keys (delete m k) = (keys m).filter (fun x => decide (x ≠ k)) := by
  induction m with
  | nil => rfl
  | cons e rest ih =>
    obtain ⟨k', v⟩ := e
    by_cases h : k' = k
    · simpa [delete, keys, List.filter_cons, h] using ih
    · simpa [delete, keys, List.filter_cons, h] using ih

theorem nodup_keys_delete (m : GoMap κ ν) (k : κ) (h : (keys m).Nodup) :
    (keys (delete m k)).Nodup := by
  rw [keys_delete]
  exact h.filter _

theorem not_mem_keys_delete (m : GoMap κ ν) (k : κ) : k ∉ keys (delete m k) := by
  rw [keys_delete]
  simp

theorem nodup_keys_set (m : GoMap κ ν) (k : κ) (v : ν) (h : (keys m).Nodup) :
    (keys (set m k v)).Nodup := by
  have h1 := nodup_keys_delete m k h
  have h2 := not_mem_keys_delete m k
  simpa [set, keys] using And.intro h2 h1

theorem length_filter_key (m : GoMap κ ν) (k : κ) :
    (m.filter (fun e => decide (e.1 = k))).length = (keys m).count k := by
  induction m with
  | nil => rfl
  | cons e rest ih =>
    by_cases hk : e.1 = k
    · simp [keys, List.filter_cons, hk] at ih ⊢
      exact ih
    · simp [keys, List.filter_cons, hk, List.count_cons] at ih ⊢
      exact ih

theorem get_delete_other (m : GoMap κ ν) (k k' : κ) (h : k ≠ k') :
    get (delete m k) k' = get m k' := by
  induction m with
  | nil => rfl
  | cons e rest ih =>
    obtain ⟨k0, v⟩ := e
    by_cases h0 : k0 = k
    · have h1 : ¬ k0 = k' := fun h' => h (h0.symm.trans h')
      simpa [delete, List.filter_cons, h0, get, h1, h] using ih
    · by_cases h1 : k0 = k'
      · subst h1
        simp [delete, List.filter_cons, h0, get]
      · simpa [delete, List.filter_cons, h0, get, h1] using ih

theorem get_set_other (m : GoMap κ ν) (k k' : κ) (v : ν) (h : k ≠ k') :
    get (set m k v) k' = get m k' := by
  simp [set, get, h, get_delete_other m k k' h]

theorem get_delete_eq_some (m : GoMap κ ν) (k k' : κ) (v : ν)
    (h : get (delete m k) k' = some v) : get m k' = some v := by
  by_cases hk : k = k'
  · subst hk
    rw [get_delete_self] at h
    cases h
  · rwa [get_delete_other m k k' hk] at h

end GoMap

/-! ## Registry -/

theorem Registry_nodup_apply (r : Registry) (op : RegistryOp) (h : r.List.Nodup) :
    (RegistryOp.apply r op).List.Nodup := by
  cases op with
  | register domain conn =>
    simp only [RegistryOp.apply, Registry.Register]
    cases hg : GoMap.get r.tunnels domain with
    | some e => simpa using h
    | none => exact GoMap.nodup_keys_set r.tunnels domain conn h
  | unregister domain =>
    simp only [RegistryOp.apply, Registry.Unregister]
    cases hg : GoMap.get r.tunnels domain with
    | some e => exact GoMap.nodup_keys_delete r.tunnels domain h
    | none => simpa using h

theorem Registry_nodup_foldl (ops : List RegistryOp) (r : Registry) (h : r.List.Nodup) :
    (ops.foldl RegistryOp.apply r).List.Nodup := by
  induction ops generalizing r with
  | nil => simpa using h
  | cons op rest ih => exact ih _ (Registry_nodup_apply r op h)

/-- C1: for every registry state and every domain D that already has an entry e,
`Register(D, c)` returns the error "domain D is already registered" and leaves
the registry unchanged: `GetTunnel(D)` still returns e and `Count()` is as before. -/
theorem Register_existing_domain_rejected (r : Registry) (D : String) (c e : Connection)
    (h : r.GetTunnel D = some e) :
    (r.Register D c).1 = Except.error ("domain " ++ D ++ " is already registered") ∧
    (r.Register D c).2 = r ∧
    (r.Register D c).2.GetTunnel D = some e ∧
    (r.Register D c).2.Count = r.Count := by
  unfold Registry.GetTunnel at h
  simp [Registry.Register, Registry.GetTunnel, h]

theorem Register_existing_domain_rejected_witness :
    (Registry.mk [("dev.example.com", ⟨"dev.example.com", "t1", 1⟩)]).GetTunnel "dev.example.com"
        = some ⟨"dev.example.com", "t1", 1⟩ ∧
    ((Registry.mk [("dev.example.com", ⟨"dev.example.com", "t1", 1⟩)]).Register
        "dev.example.com" ⟨"dev.example.com", "t2", 2⟩).2.GetTunnel "dev.example.com"
        = some ⟨"dev.example.com", "t1", 1⟩ :=
  ⟨by decide,
   (Register_existing_domain_rejected
      (Registry.mk [("dev.example.com", ⟨"dev.example.com", "t1", 1⟩)])
      "dev.example.com" ⟨"dev.example.com", "t2", 2⟩ ⟨"dev.example.com", "t1", 1⟩
      (by decide)).2.2.1⟩

/-- C2: for every registry state in which domain D is absent and every two
connections a and b: `Register(D, a)` succeeds (and `GetTunnel(D)` is then a), a
following `Register(D, b)` fails, and after `Unregister(D)` a `Register(D, b)`
succeeds with `GetTunnel(D)` then returning b. -/
theorem Register_fails_until_Unregister (r : Registry) (D : String) (a b : Connection)
    (h : r.GetTunnel D = none) :
    (r.Register D a).1 = Except.ok () ∧
    (r.Register D a).2.GetTunnel D = some a ∧
    ((r.Register D a).2.Register D b).1
      = Except.error ("domain " ++ D ++ " is already registered") ∧
    ((r.Register D a).2.Register D b).2.GetTunnel D = some a ∧
    ((((r.Register D a).2.Register D b).2.Unregister D).Register D b).1 = Except.ok () ∧
    ((((r.Register D a).2.Register D b).2.Unregister D).Register D b).2.GetTunnel D
      = some b := by
  unfold Registry.GetTunnel at h
  have h1 : r.Register D a = (Except.ok (), ⟨GoMap.set r.tunnels D a⟩) := by
    simp [Registry.Register, h]
  have h2 : (Registry.mk (GoMap.set r.tunnels D a)).Register D b
      = (Except.error ("domain " ++ D ++ " is already registered"),
          ⟨GoMap.set r.tunnels D a⟩) := by
    simp [Registry.Register, GoMap.get_set_self]
  have h3 : (Registry.mk (GoMap.set r.tunnels D a)).Unregister D
      = ⟨GoMap.delete (GoMap.set r.tunnels D a) D⟩ := by
    simp [Registry.Unregister, GoMap.get_set_self]
  have h4 : (Registry.mk (GoMap.delete (GoMap.set r.tunnels D a) D)).Register D b
      = (Except.ok (), ⟨GoMap.set (GoMap.delete (GoMap.set r.tunnels D a) D) D b⟩) := by
    simp [Registry.Register, GoMap.get_delete_self]
  rw [h1]
  simp only [h2, h3, h4]
  simp [Registry.GetTunnel, GoMap.get_set_self]

theorem Register_fails_until_Unregister_witness :
    Registry.New.GetTunnel "dev.example.com" = none ∧
    ((((Registry.New.Register "dev.example.com" ⟨"dev.example.com", "t1", 1⟩).2.Register
        "dev.example.com" ⟨"dev.example.com", "t2", 2⟩).2.Unregister
        "dev.example.com").Register "dev.example.com" ⟨"dev.example.com", "t2", 2⟩).2.GetTunnel
        "dev.example.com" = some ⟨"dev.example.com", "t2", 2⟩ :=
  ⟨by decide,
   (Register_fails_until_Unregister Registry.New "dev.example.com"
      ⟨"dev.example.com", "t1", 1⟩ ⟨"dev.example.com", "t2", 2⟩ (by decide)).2.2.2.2.2⟩

/-- C3: in every registry state reachable from `New()` by any sequence of
`Register` and `Unregister` calls, each domain has at most one entry: `List()`
has no duplicates (every domain occurs in it at most once), `Count()` equals the
length of `List()`, and a domain D occurs in `List()` exactly when
`GetTunnel(D)` finds an entry. -/
theorem reachable_registry_one_entry_per_domain (ops : List RegistryOp) :
    (runOps ops).List.Nodup ∧
    (∀ D : String, (runOps ops).List.count D ≤ 1) ∧
    (∀ D : String, ((runOps ops).tunnels.filter (fun e => decide (e.1 = D))).length ≤ 1) ∧
    (runOps ops).Count = (runOps ops).List.length ∧
    (∀ D : String, D ∈ (runOps ops).List ↔ ((runOps ops).GetTunnel D).isSome = true) := by
  have hnd : (runOps ops).List.Nodup :=
    Registry_nodup_foldl ops Registry.New (by simp [Registry.New, Registry.List, GoMap.keys])
  have hcount : ∀ D : String, (runOps ops).List.count D ≤ 1 := fun D =>
    List.nodup_iff_count_le_one.mp hnd D
  refine ⟨hnd, hcount, ?_, ?_, ?_⟩
  · intro D
    have hc := hcount D
    have := GoMap.length_filter_key (runOps ops).tunnels D
    simp only [Registry.List] at hc
    omega
  · simp [Registry.Count, Registry.List, GoMap.keys]
  · intro D
    exact GoMap.mem_keys_iff_get _ D

/-! ## Base64 -/

theorem decodeSextet_encodeSextet (n : Nat) (h : n < 64) :
    decodeSextet (encodeSextet n) = some n := by
  interval_cases n <;> decide

theorem encodeSextet_mem (n : Nat) (h : n < 64) : encodeSextet n ∈ base64Alphabet := by
  interval_cases n <;> decide

theorem encodeSextet_ne_pad (n : Nat) (h : n < 64) : encodeSextet n ≠ '=' := by
  intro h'
  have := encodeSextet_mem n h
  rw [h'] at this
  exact absurd this (by decide)

theorem encodeSextet_not_line_break (n : Nat) (h : n < 64) :
    encodeSextet n ≠ '\r' ∧ encodeSextet n ≠ '\n' := by
  have hm := encodeSextet_mem n h
  constructor
  · intro h'
    rw [h'] at hm
    exact absurd hm (by decide)
  · intro h'
    rw [h'] at hm
    exact absurd hm (by decide)

theorem base64Encode_no_line_break (b : List Byte) :
    ∀ c ∈ base64Encode b, c ≠ '\r' ∧ c ≠ '\n' := by
  induction b using base64Encode.induct with
  | case1 => simp [base64Encode]
  | case2 a =>
    intro c hc
    simp only [base64Encode, List.mem_cons, List.mem_singleton, List.not_mem_nil, or_false] at hc
    rcases hc with rfl | rfl | rfl | rfl
    · exact encodeSextet_not_line_break _ (Nat.mod_lt _ (by decide))
    · exact encodeSextet_not_line_break _ (Nat.mod_lt _ (by decide))
    · decide
    · decide
  | case3 a b =>
    intro c hc
    simp only [base64Encode, List.mem_cons, List.mem_singleton, List.not_mem_nil, or_false] at hc
    rcases hc with rfl | rfl | rfl | rfl
    · exact encodeSextet_not_line_break _ (Nat.mod_lt _ (by decide))
    · exact encodeSextet_not_line_break _ (Nat.mod_lt _ (by decide))
    · exact encodeSextet_not_line_break _ (Nat.mod_lt _ (by decide))
    · decide
  | case4 a b c rest ih =>
    intro x hx
    simp only [base64Encode, List.mem_cons] at hx
    rcases hx with rfl | rfl | rfl | rfl | hx
    · exact encodeSextet_not_line_break _ (Nat.mod_lt _ (by decide))
    · exact encodeSextet_not_line_break _ (Nat.mod_lt _ (by decide))
    · exact encodeSextet_not_line_break _ (Nat.mod_lt _ (by decide))
    · exact encodeSextet_not_line_break _ (Nat.mod_lt _ (by decide))
    · exact ih x hx

theorem base64DecodeGroups_base64Encode (b : List Byte) :
    base64DecodeGroups (base64Encode b) = some b := by
  induction b using base64Encode.induct with
  | case1 => rfl
  | case2 a =>
    have ha := a.isLt
    simp only [base64Encode, base64DecodeGroups, and_self, if_true,
      decodeSextet_encodeSextet _ (Nat.mod_lt _ (show 0 < 64 by decide))]
    simp only [Option.some.injEq, List.cons.injEq, and_true]
    apply Fin.ext
    simp only [Fin.ofNat, Fin.val_mk]
    omega
  | case3 a b =>
    have ha := a.isLt
    have hb := b.isLt
    have h2 := encodeSextet_ne_pad ((a.val * 65536 + b.val * 256) / 64 % 64)
      (Nat.mod_lt _ (by decide))
    simp only [base64Encode, base64DecodeGroups, h2, false_and, if_false, and_self, if_true,
      decodeSextet_encodeSextet _ (Nat.mod_lt _ (show 0 < 64 by decide))]
    simp only [Option.some.injEq, List.cons.injEq, and_true]
    constructor
    · apply Fin.ext
      simp only [Fin.ofNat, Fin.val_mk]
      omega
    · apply Fin.ext
      simp only [Fin.ofNat, Fin.val_mk]
      omega
  | case4 a b c rest ih =>
    have ha := a.isLt
    have hb := b.isLt
    have hc := c.isLt
    have h2 := encodeSextet_ne_pad ((a.val * 65536 + b.val * 256 + c.val) / 64 % 64)
      (Nat.mod_lt _ (by decide))
    have h3 := encodeSextet_ne_pad ((a.val * 65536 + b.val * 256 + c.val) % 64)
      (Nat.mod_lt _ (by decide))
    simp only [base64Encode, base64DecodeGroups, h2, h3, false_and, if_false, ih,
      decodeSextet_encodeSextet _ (Nat.mod_lt _ (show 0 < 64 by decide))]
    simp only [Option.some.injEq, List.cons.injEq, and_true]
    refine ⟨?_, ?_, ?_⟩
    · apply Fin.ext
      simp only [Fin.ofNat, Fin.val_mk]
      omega
    · apply Fin.ext
      simp only [Fin.ofNat, Fin.val_mk]
      omega
    · apply Fin.ext
      simp only [Fin.ofNat, Fin.val_mk]
      omega

theorem base64Decode_base64Encode (b : List Byte) :
    base64Decode (base64Encode b) = .ok b := by
  have hf : (base64Encode b).filter (fun c => decide (c ≠ '\r' ∧ c ≠ '\n')) = base64Encode b := by
    apply List.filter_eq_self.mpr
    intro c hc
    simpa using base64Encode_no_line_break b c hc
  unfold base64Decode
  rw [hf, base64DecodeGroups_base64Encode]

theorem unmarshalBytes_marshalBytes (b cur : List Byte) :
    unmarshalBytes (marshalBytes b) cur = .ok b := by
  simp [unmarshalBytes, marshalBytes, base64Decode_base64Encode]

/-! ## Framed protocol -/

theorem unmarshalStringElems_map_str (vs : List String) :
    unmarshalStringElems (vs.map JSON.str) = .ok vs := by
  induction vs with
  | nil => rfl
  | cons v rest ih => simp [unmarshalStringElems, unmarshalString, ih]

theorem unmarshalHeaderMembers_marshalled (es : List (String × List String))
    (cur : GoMap String (List String)) :
    unmarshalHeaderMembers (es.map (fun e => (e.1, JSON.arr (e.2.map JSON.str)))) cur
      = .ok (es.foldl (fun acc e => GoMap.set acc e.1 e.2) cur) := by
  induction es generalizing cur with
  | nil => rfl
  | cons e rest ih =>
    simp [unmarshalHeaderMembers, unmarshalStringSlice, unmarshalStringElems_map_str, ih]

theorem unmarshalHeaders_marshalHeaders (h cur : GoMap String (List String)) :
    unmarshalHeaders (marshalHeaders h) cur
      = .ok ((sortByKey h).foldl (fun acc e => GoMap.set acc e.1 e.2) cur) := by
  simp [unmarshalHeaders, marshalHeaders, unmarshalHeaderMembers_marshalled]

theorem DecodeHTTPRequest_EncodeMessage (t : MessageType) (req : HTTPRequestMessage) :
    DecodeHTTPRequest ⟨t, some (Marshal (.httpRequest req))⟩
      = .ok { req with
          Headers := (sortByKey req.Headers).foldl (fun acc e => GoMap.set acc e.1 e.2) [] } := by
  have f1 : matchField ["request_id", "method", "path", "headers", "body"] "request_id"
      = some "request_id" := by decide
  have f2 : matchField ["request_id", "method", "path", "headers", "body"] "method"
      = some "method" := by decide
  have f3 : matchField ["request_id", "method", "path", "headers", "body"] "path"
      = some "path" := by decide
  have f4 : matchField ["request_id", "method", "path", "headers", "body"] "headers"
      = some "headers" := by decide
  have f5 : matchField ["request_id", "method", "path", "headers", "body"] "body"
      = some "body" := by decide
  obtain ⟨rid, method, path, headers, body⟩ := req
  by_cases hb : body.length = 0
  · have hb' : body = [] := List.length_eq_zero.mp hb
    subst hb'
    simp [DecodeHTTPRequest, Marshal, unmarshalStruct, unmarshalMembers, f1, f2, f3, f4,
      HTTPRequestMessage.setField, unmarshalString, unmarshalHeaders_marshalHeaders]
  · simp [DecodeHTTPRequest, Marshal, unmarshalStruct, unmarshalMembers, f1, f2, f3, f4, f5,
      HTTPRequestMessage.setField, unmarshalString, unmarshalHeaders_marshalHeaders,
      unmarshalBytes_marshalBytes, hb]

theorem DecodeHTTPResponse_EncodeMessage (t : MessageType) (resp : HTTPResponseMessage)
    (hlo : -9223372036854775808 ≤ resp.StatusCode)
    (hhi : resp.StatusCode ≤ 9223372036854775807) :
    DecodeHTTPResponse ⟨t, some (Marshal (.httpResponse resp))⟩
      = .ok { resp with
          Headers := (sortByKey resp.Headers).foldl (fun acc e => GoMap.set acc e.1 e.2) [] } := by
  have f1 : matchField ["request_id", "status_code", "headers", "body"] "request_id"
      = some "request_id" := by decide
  have f2 : matchField ["request_id", "status_code", "headers", "body"] "status_code"
      = some "status_code" := by decide
  have f4 : matchField ["request_id", "status_code", "headers", "body"] "headers"
      = some "headers" := by decide
  have f5 : matchField ["request_id", "status_code", "headers", "body"] "body"
      = some "body" := by decide
  obtain ⟨rid, status, headers, body⟩ := resp
  simp only at hlo hhi
  by_cases hb : body.length = 0
  · have hb' : body = [] := List.length_eq_zero.mp hb
    subst hb'
    simp [DecodeHTTPResponse, Marshal, unmarshalStruct, unmarshalMembers, f1, f2, f4,
      HTTPResponseMessage.setField, unmarshalString, unmarshalInt, hlo, hhi,
      unmarshalHeaders_marshalHeaders]
  · simp [DecodeHTTPResponse, Marshal, unmarshalStruct, unmarshalMembers, f1, f2, f4, f5,
      HTTPResponseMessage.setField, unmarshalString, unmarshalInt, hlo, hhi,
      unmarshalHeaders_marshalHeaders, unmarshalBytes_marshalBytes, hb]

/-- C4: for every `http_request` and every `http_response` payload, whatever
bytes its body holds (none, zero bytes, bytes that are no valid UTF-8),
`EncodeMessage` succeeds, decoding the envelope it produces succeeds, and the
decoded body is byte for byte the original body; the request id, method, path
and status code are the original ones too. The status code is a Go `int`,
that is, a 64-bit integer. -/
theorem body_round_trip (req : HTTPRequestMessage) (resp : HTTPResponseMessage)
    (hlo : -9223372036854775808 ≤ resp.StatusCode)
    (hhi : resp.StatusCode ≤ 9223372036854775807) :
    (∃ msg decoded, EncodeMessage TypeHTTPRequest (.httpRequest req) = .ok msg ∧
      DecodeHTTPRequest msg = .ok decoded ∧ decoded.Body = req.Body ∧
      decoded.RequestID = req.RequestID ∧ decoded.Method = req.Method ∧
      decoded.Path = req.Path) ∧
    (∃ msg decoded, EncodeMessage TypeHTTPResponse (.httpResponse resp) = .ok msg ∧
      DecodeHTTPResponse msg = .ok decoded ∧ decoded.Body = resp.Body ∧
      decoded.RequestID = resp.RequestID ∧ decoded.StatusCode = resp.StatusCode) := by
  constructor
  · exact ⟨_, _, rfl, DecodeHTTPRequest_EncodeMessage _ req, rfl, rfl, rfl, rfl⟩
  · exact ⟨_, _, rfl, DecodeHTTPResponse_EncodeMessage _ resp hlo hhi, rfl, rfl, rfl⟩

theorem body_round_trip_witness :
    (-9223372036854775808 : Int) ≤ 200 ∧ (200 : Int) ≤ 9223372036854775807 ∧
    (∃ msg decoded,
      EncodeMessage TypeHTTPRequest
        (.httpRequest ⟨"req-1", "POST", "/upload", [("Accept", ["a", "b"])], [0, 255, 128, 10]⟩)
        = .ok msg ∧
      DecodeHTTPRequest msg = .ok decoded ∧ decoded.Body = [0, 255, 128, 10] ∧
      decoded.RequestID = "req-1" ∧ decoded.Method = "POST" ∧ decoded.Path = "/upload") :=
  ⟨by decide, by decide,
   (body_round_trip
      ⟨"req-1", "POST", "/upload", [("Accept", ["a", "b"])], [0, 255, 128, 10]⟩
      ⟨"req-1", 200, [], []⟩ (by decide) (by decide)).1⟩

/-- C5, the claim refuted: an envelope of the unknown type `bogus` whose data is
a well-formed JSON object is decoded by `DecodeRegister` without any error. -/
theorem DecodeRegister_accepts_unknown_type :
    "bogus" ∉ knownTypes ∧
    DecodeRegister
      ⟨"bogus", some (.obj [("domain", .str "dev.example.com"),
        ("protocol_version", .str "1.0")])⟩
      = .ok ⟨"dev.example.com", "1.0"⟩ := by
  decide

/-! ## Which data a Decode function accepts -/

theorem unmarshalString_isOk (j : JSON) (cur : String) :
    (unmarshalString j cur).isOk = j.fitsString := by
  cases j <;> rfl

theorem unmarshalInt_isOk (j : JSON) (cur : Int) :
    (unmarshalInt j cur).isOk = j.fitsInt := by
  cases j with
  | num n =>
    by_cases h : -9223372036854775808 ≤ n ∧ n ≤ 9223372036854775807
    · simp [unmarshalInt, JSON.fitsInt, h, Except.isOk, Except.toBool]
    · simp [unmarshalInt, JSON.fitsInt, h, Except.isOk, Except.toBool]
  | _ => rfl

theorem unmarshalByteElems_isOk (elems : List JSON) (cur : List Byte) :
    (unmarshalByteElems elems cur).isOk = elems.all JSON.fitsByteElem := by
  induction elems generalizing cur with
  | nil => rfl
  | cons j js ih =>
    cases j with
    | num n =>
      have ih' := ih cur.tail
      by_cases h : 0 ≤ n ∧ n ≤ 255
      · cases hr : unmarshalByteElems js cur.tail with
        | ok rest =>
          rw [hr] at ih'
          simp [unmarshalByteElems, JSON.fitsByteElem, h, hr, ← ih', Except.isOk,
            Except.toBool]
        | error e =>
          rw [hr] at ih'
          simp [unmarshalByteElems, JSON.fitsByteElem, h, hr, ← ih', Except.isOk,
            Except.toBool]
      · simp [unmarshalByteElems, JSON.fitsByteElem, h, Except.isOk, Except.toBool]
    | null =>
      have ih' := ih cur.tail
      cases hr : unmarshalByteElems js cur.tail with
      | ok rest =>
        rw [hr] at ih'
        simp [unmarshalByteElems, JSON.fitsByteElem, hr, ← ih', Except.isOk, Except.toBool]
      | error e =>
        rw [hr] at ih'
        simp [unmarshalByteElems, JSON.fitsByteElem, hr, ← ih', Except.isOk, Except.toBool]
    | bool b => simp [unmarshalByteElems, JSON.fitsByteElem, Except.isOk, Except.toBool]
    | frac lit => simp [unmarshalByteElems, JSON.fitsByteElem, Except.isOk, Except.toBool]
    | str s => simp [unmarshalByteElems, JSON.fitsByteElem, Except.isOk, Except.toBool]
    | arr xs => simp [unmarshalByteElems, JSON.fitsByteElem, Except.isOk, Except.toBool]
    | obj ms => simp [unmarshalByteElems, JSON.fitsByteElem, Except.isOk, Except.toBool]

theorem unmarshalBytes_isOk (j : JSON) (cur : List Byte) :
    (unmarshalBytes j cur).isOk = j.fitsBytes := by
  cases j with
  | str s =>
    simp only [unmarshalBytes, JSON.fitsBytes, base64Decode]
    cases base64DecodeGroups (s.data.filter (fun c => decide (c ≠ '\r' ∧ c ≠ '\n'))) <;> rfl
  | arr elems => exact unmarshalByteElems_isOk elems cur
  | _ => rfl

theorem unmarshalStringElems_isOk (elems : List JSON) :
    (unmarshalStringElems elems).isOk = elems.all JSON.fitsString := by
  induction elems with
  | nil => rfl
  | cons j js ih =>
    have hj := unmarshalString_isOk j ""
    cases hs : unmarshalString j "" with
    | ok v =>
      rw [hs] at hj
      cases hr : unmarshalStringElems js with
      | ok rest =>
        rw [hr] at ih
        simp [unmarshalStringElems, hs, hr, ← hj, ← ih, Except.isOk, Except.toBool]
      | error e =>
        rw [hr] at ih
        simp [unmarshalStringElems, hs, hr, ← hj, ← ih, Except.isOk, Except.toBool]
    | error e =>
      rw [hs] at hj
      simp [unmarshalStringElems, hs, ← hj, Except.isOk, Except.toBool]

theorem unmarshalStringSlice_isOk (j : JSON) :
    (unmarshalStringSlice j).isOk = j.fitsStringSlice := by
  cases j with
  | arr elems => exact unmarshalStringElems_isOk elems
  | _ => rfl

theorem unmarshalHeaderMembers_isOk (members : List (String × JSON))
    (cur : GoMap String (List String)) :
    (unmarshalHeaderMembers members cur).isOk
      = members.all (fun e => e.2.fitsStringSlice) := by
  induction members generalizing cur with
  | nil => rfl
  | cons e rest ih =>
    obtain ⟨k, v⟩ := e
    have hv := unmarshalStringSlice_isOk v
    cases hs : unmarshalStringSlice v with
    | ok values =>
      rw [hs] at hv
      have ih' := ih (GoMap.set cur k values)
      simp only [unmarshalHeaderMembers, hs, List.all_cons, ← hv, ← ih']
      simp [Except.isOk, Except.toBool]
    | error err =>
      rw [hs] at hv
      simp [unmarshalHeaderMembers, hs, ← hv, Except.isOk, Except.toBool]

theorem unmarshalHeaders_isOk (j : JSON) (cur : GoMap String (List String)) :
    (unmarshalHeaders j cur).isOk = j.fitsHeaders := by
  cases j with
  | obj members => exact unmarshalHeaderMembers_isOk members cur
  | _ => rfl

theorem unmarshalMembers_isOk {σ : Type} (names : List String)
    (setField : String → JSON → σ → Except String σ) (fits : String → JSON → Bool)
    (hset : ∀ name v cur, (setField name v cur).isOk = fits name v)
    (members : List (String × JSON)) (cur : σ) :
    (unmarshalMembers names setField members cur).isOk
      = members.all (fun e =>
          match matchField names e.1 with
          | some name => fits name e.2
          | none => true) := by
  induction members generalizing cur with
  | nil => rfl
  | cons e rest ih =>
    obtain ⟨k, v⟩ := e
    cases hm : matchField names k with
    | none => simp [unmarshalMembers, hm, ih]
    | some name =>
      have hv := hset name v cur
      cases hs : setField name v cur with
      | ok next =>
        rw [hs] at hv
        have ih' := ih next
        simp only [unmarshalMembers, hm, hs, List.all_cons, ← hv, ← ih']
        simp [Except.isOk, Except.toBool]
      | error err =>
        rw [hs] at hv
        simp [unmarshalMembers, hm, hs, ← hv, Except.isOk, Except.toBool]

theorem unmarshalStruct_isOk {σ : Type} (goType : String) (names : List String)
    (setField : String → JSON → σ → Except String σ) (fits : String → JSON → Bool)
    (hset : ∀ name v cur, (setField name v cur).isOk = fits name v)
    (data : Option JSON) (zero : σ) :
    (unmarshalStruct goType names setField data zero).isOk = fitsPayload names fits data := by
  cases data with
  | none => rfl
  | some j =>
    cases j with
    | obj members => exact unmarshalMembers_isOk names setField fits hset members zero
    | _ => rfl

theorem RegisterMessage_setField_isOk (name : String) (v : JSON) (m : RegisterMessage) :
    (RegisterMessage.setField name v m).isOk = fitsStringField name v := by
  unfold RegisterMessage.setField fitsStringField
  split_ifs
  · rw [← unmarshalString_isOk v m.Domain]
    cases unmarshalString v m.Domain <;> rfl
  · rw [← unmarshalString_isOk v m.ProtocolVersion]
    cases unmarshalString v m.ProtocolVersion <;> rfl

theorem RegisteredMessage_setField_isOk (name : String) (v : JSON) (m : RegisteredMessage) :
    (RegisteredMessage.setField name v m).isOk = fitsStringField name v := by
  unfold RegisteredMessage.setField fitsStringField
  split_ifs
  · rw [← unmarshalString_isOk v m.TunnelID]
    cases unmarshalString v m.TunnelID <;> rfl
  · rw [← unmarshalString_isOk v m.ServerURL]
    cases unmarshalString v m.ServerURL <;> rfl

theorem ErrorMessage_setField_isOk (name : String) (v : JSON) (m : ErrorMessage) :
    (ErrorMessage.setField name v m).isOk = fitsStringField name v := by
  unfold ErrorMessage.setField fitsStringField
  split_ifs
  · rw [← unmarshalString_isOk v m.Code]
    cases unmarshalString v m.Code <;> rfl
  · rw [← unmarshalString_isOk v m.Message]
    cases unmarshalString v m.Message <;> rfl

theorem HTTPRequestMessage_setField_isOk (name : String) (v : JSON)
    (m : HTTPRequestMessage) :
    (HTTPRequestMessage.setField name v m).isOk = fitsHTTPRequestField name v := by
  unfold HTTPRequestMessage.setField fitsHTTPRequestField
  by_cases h1 : name = "request_id"
  · simp only [h1, if_true, true_or]
    rw [← unmarshalString_isOk v m.RequestID]
    cases unmarshalString v m.RequestID <;> rfl
  · by_cases h2 : name = "method"
    · simp only [h1, h2, if_true, if_false, true_or, or_true]
      rw [← unmarshalString_isOk v m.Method]
      cases unmarshalString v m.Method <;> rfl
    · by_cases h3 : name = "path"
      · simp only [h1, h2, h3, if_true, if_false, or_true]
        rw [← unmarshalString_isOk v m.Path]
        cases unmarshalString v m.Path <;> rfl
      · by_cases h4 : name = "headers"
        · simp only [h1, h2, h3, h4, if_true, if_false, or_self]
          rw [← unmarshalHeaders_isOk v m.Headers]
          cases unmarshalHeaders v m.Headers <;> rfl
        · simp only [h1, h2, h3, h4, if_false, or_self]
          rw [← unmarshalBytes_isOk v m.Body]
          cases unmarshalBytes v m.Body <;> rfl

theorem HTTPResponseMessage_setField_isOk (name : String) (v : JSON)
    (m : HTTPResponseMessage) :
    (HTTPResponseMessage.setField name v m).isOk = fitsHTTPResponseField name v := by
  unfold HTTPResponseMessage.setField fitsHTTPResponseField
  by_cases h1 : name = "request_id"
  · simp only [h1, if_true]
    rw [← unmarshalString_isOk v m.RequestID]
    cases unmarshalString v m.RequestID <;> rfl
  · by_cases h2 : name = "status_code"
    · simp only [h1, h2, if_true, if_false]
      rw [← unmarshalInt_isOk v m.StatusCode]
      cases unmarshalInt v m.StatusCode <;> rfl
    · by_cases h4 : name = "headers"
      · simp only [h1, h2, h4, if_true, if_false]
        rw [← unmarshalHeaders_isOk v m.Headers]
        cases unmarshalHeaders v m.Headers <;> rfl
      · simp only [h1, h2, h4, if_false]
        rw [← unmarshalBytes_isOk v m.Body]
        cases unmarshalBytes v m.Body <;> rfl

theorem DecodeRegister_outcome (msg : Message) :
    (DecodeRegister msg).isOk
      = (unmarshalStruct "protocol.RegisterMessage" ["domain", "protocol_version"]
          RegisterMessage.setField msg.Data ⟨"", ""⟩).isOk ∧
    (∀ err : String, DecodeRegister msg = .error err →
      ∃ detail, err = "failed to decode register message: " ++ detail) := by
  unfold DecodeRegister
  generalize unmarshalStruct "protocol.RegisterMessage" ["domain", "protocol_version"]
    RegisterMessage.setField msg.Data ⟨"", ""⟩ = x
  cases x with
  | ok a => exact ⟨rfl, fun err h => by cases h⟩
  | error e => exact ⟨rfl, fun err h => by cases h; exact ⟨e, rfl⟩⟩

theorem DecodeRegistered_outcome (msg : Message) :
    (DecodeRegistered msg).isOk
      = (unmarshalStruct "protocol.RegisteredMessage" ["tunnel_id", "server_url"]
          RegisteredMessage.setField msg.Data ⟨"", ""⟩).isOk ∧
    (∀ err : String, DecodeRegistered msg = .error err →
      ∃ detail, err = "failed to decode registered message: " ++ detail) := by
  unfold DecodeRegistered
  generalize unmarshalStruct "protocol.RegisteredMessage" ["tunnel_id", "server_url"]
    RegisteredMessage.setField msg.Data ⟨"", ""⟩ = x
  cases x with
  | ok a => exact ⟨rfl, fun err h => by cases h⟩
  | error e => exact ⟨rfl, fun err h => by cases h; exact ⟨e, rfl⟩⟩

theorem DecodeHTTPRequest_outcome (msg : Message) :
    (DecodeHTTPRequest msg).isOk
      = (unmarshalStruct "protocol.HTTPRequestMessage" ["request_id", "method", "path", "headers", "body"]
          HTTPRequestMessage.setField msg.Data ⟨"", "", "", [], []⟩).isOk ∧
    (∀ err : String, DecodeHTTPRequest msg = .error err →
      ∃ detail, err = "failed to decode HTTP request message: " ++ detail) := by
  unfold DecodeHTTPRequest
  generalize unmarshalStruct "protocol.HTTPRequestMessage" ["request_id", "method", "path", "headers", "body"]
    HTTPRequestMessage.setField msg.Data ⟨"", "", "", [], []⟩ = x
  cases x with
  | ok a => exact ⟨rfl, fun err h => by cases h⟩
  | error e => exact ⟨rfl, fun err h => by cases h; exact ⟨e, rfl⟩⟩

theorem DecodeHTTPResponse_outcome (msg : Message) :
    (DecodeHTTPResponse msg).isOk
      = (unmarshalStruct "protocol.HTTPResponseMessage" ["request_id", "status_code", "headers", "body"]
          HTTPResponseMessage.setField msg.Data ⟨"", 0, [], []⟩).isOk ∧
    (∀ err : String, DecodeHTTPResponse msg = .error err →
      ∃ detail, err = "failed to decode HTTP response message: " ++ detail) := by
  unfold DecodeHTTPResponse
  generalize unmarshalStruct "protocol.HTTPResponseMessage" ["request_id", "status_code", "headers", "body"]
    HTTPResponseMessage.setField msg.Data ⟨"", 0, [], []⟩ = x
  cases x with
  | ok a => exact ⟨rfl, fun err h => by cases h⟩
  | error e => exact ⟨rfl, fun err h => by cases h; exact ⟨e, rfl⟩⟩

theorem DecodeError_outcome (msg : Message) :
    (DecodeError msg).isOk
      = (unmarshalStruct "protocol.ErrorMessage" ["code", "message"]
          ErrorMessage.setField msg.Data ⟨"", ""⟩).isOk ∧
    (∀ err : String, DecodeError msg = .error err →
      ∃ detail, err = "failed to decode error message: " ++ detail) := by
  unfold DecodeError
  generalize unmarshalStruct "protocol.ErrorMessage" ["code", "message"]
    ErrorMessage.setField msg.Data ⟨"", ""⟩ = x
  cases x with
  | ok a => exact ⟨rfl, fun err h => by cases h⟩
  | error e => exact ⟨rfl, fun err h => by cases h; exact ⟨e, rfl⟩⟩

/-- C5 as amended: no Decode function looks at the type of the envelope; each
gives the same result for the same data under any two types, known or not.
Each succeeds exactly when the data is `null` or a JSON object in which every
member whose key names a field of the function's variant, letter case aside,
holds a value that fits the field (a string or `null` for a string field, an
integer in the 64-bit range or `null` for `status_code`, `null` or an object
of arrays of strings for `headers`, `null`, a base64 string or an array of
byte values for `body`); in every other case (data missing, data of another
kind, a member that does not fit) it returns an error whose text is
"failed to decode ... message: " with the name of the function's variant,
followed by a detail, and so names the variant, not the type of the envelope.
With the data missing the detail is "unexpected end of JSON input"; the
payload written by `EncodeMessage` for a `register`, `registered` or `error`
variant decodes to itself under any type. -/
theorem Decode_ignores_envelope_type (t t' : MessageType) (data : Option JSON) :
    (DecodeRegister ⟨t, data⟩ = DecodeRegister ⟨t', data⟩ ∧
     DecodeRegistered ⟨t, data⟩ = DecodeRegistered ⟨t', data⟩ ∧
     DecodeHTTPRequest ⟨t, data⟩ = DecodeHTTPRequest ⟨t', data⟩ ∧
     DecodeHTTPResponse ⟨t, data⟩ = DecodeHTTPResponse ⟨t', data⟩ ∧
     DecodeError ⟨t, data⟩ = DecodeError ⟨t', data⟩) ∧
    ((DecodeRegister ⟨t, data⟩).isOk
       = fitsPayload ["domain", "protocol_version"] fitsStringField data ∧
     (DecodeRegistered ⟨t, data⟩).isOk
       = fitsPayload ["tunnel_id", "server_url"] fitsStringField data ∧
     (DecodeHTTPRequest ⟨t, data⟩).isOk
       = fitsPayload ["request_id", "method", "path", "headers", "body"]
           fitsHTTPRequestField data ∧
     (DecodeHTTPResponse ⟨t, data⟩).isOk
       = fitsPayload ["request_id", "status_code", "headers", "body"]
           fitsHTTPResponseField data ∧
     (DecodeError ⟨t, data⟩).isOk = fitsPayload ["code", "message"] fitsStringField data) ∧
    ((∀ err : String, DecodeRegister ⟨t, data⟩ = .error err →
       ∃ detail, err = "failed to decode register message: " ++ detail) ∧
     (∀ err : String, DecodeRegistered ⟨t, data⟩ = .error err →
       ∃ detail, err = "failed to decode registered message: " ++ detail) ∧
     (∀ err : String, DecodeHTTPRequest ⟨t, data⟩ = .error err →
       ∃ detail, err = "failed to decode HTTP request message: " ++ detail) ∧
     (∀ err : String, DecodeHTTPResponse ⟨t, data⟩ = .error err →
       ∃ detail, err = "failed to decode HTTP response message: " ++ detail) ∧
     (∀ err : String, DecodeError ⟨t, data⟩ = .error err →
       ∃ detail, err = "failed to decode error message: " ++ detail)) ∧
    (DecodeRegister ⟨t, none⟩
       = .error "failed to decode register message: unexpected end of JSON input" ∧
     DecodeRegistered ⟨t, none⟩
       = .error "failed to decode registered message: unexpected end of JSON input" ∧
     DecodeHTTPRequest ⟨t, none⟩
       = .error "failed to decode HTTP request message: unexpected end of JSON input" ∧
     DecodeHTTPResponse ⟨t, none⟩
       = .error "failed to decode HTTP response message: unexpected end of JSON input" ∧
     DecodeError ⟨t, none⟩
       = .error "failed to decode error message: unexpected end of JSON input") ∧
    ((∀ m : RegisterMessage, DecodeRegister ⟨t, some (Marshal (.register m))⟩ = .ok m) ∧
     (∀ m : RegisteredMessage,
       DecodeRegistered ⟨t, some (Marshal (.registered m))⟩ = .ok m) ∧
     (∀ m : ErrorMessage, DecodeError ⟨t, some (Marshal (.error m))⟩ = .ok m)) := by
  refine ⟨⟨rfl, rfl, rfl, rfl, rfl⟩, ⟨?_, ?_, ?_, ?_, ?_⟩, ⟨?_, ?_, ?_, ?_, ?_⟩,
    ⟨?_, ?_, ?_, ?_, ?_⟩, ⟨?_, ?_, ?_⟩⟩
  · rw [(DecodeRegister_outcome _).1]
    exact unmarshalStruct_isOk _ _ _ _ RegisterMessage_setField_isOk data _
  · rw [(DecodeRegistered_outcome _).1]
    exact unmarshalStruct_isOk _ _ _ _ RegisteredMessage_setField_isOk data _
  · rw [(DecodeHTTPRequest_outcome _).1]
    exact unmarshalStruct_isOk _ _ _ _ HTTPRequestMessage_setField_isOk data _
  · rw [(DecodeHTTPResponse_outcome _).1]
    exact unmarshalStruct_isOk _ _ _ _ HTTPResponseMessage_setField_isOk data _
  · rw [(DecodeError_outcome _).1]
    exact unmarshalStruct_isOk _ _ _ _ ErrorMessage_setField_isOk data _
  · exact (DecodeRegister_outcome _).2
  · exact (DecodeRegistered_outcome _).2
  · exact (DecodeHTTPRequest_outcome _).2
  · exact (DecodeHTTPResponse_outcome _).2
  · exact (DecodeError_outcome _).2
  · simp only [DecodeRegister, unmarshalStruct]; decide
  · simp only [DecodeRegistered, unmarshalStruct]; decide
  · simp only [DecodeHTTPRequest, unmarshalStruct]; decide
  · simp only [DecodeHTTPResponse, unmarshalStruct]; decide
  · simp only [DecodeError, unmarshalStruct]; decide
  · intro m
    have f1 : matchField ["domain", "protocol_version"] "domain" = some "domain" := by decide
    have f2 : matchField ["domain", "protocol_version"] "protocol_version"
        = some "protocol_version" := by decide
    simp [DecodeRegister, Marshal, unmarshalStruct, unmarshalMembers, f1, f2,
      RegisterMessage.setField, unmarshalString]
  · intro m
    have f1 : matchField ["tunnel_id", "server_url"] "tunnel_id" = some "tunnel_id" := by
      decide
    have f2 : matchField ["tunnel_id", "server_url"] "server_url" = some "server_url" := by
      decide
    simp [DecodeRegistered, Marshal, unmarshalStruct, unmarshalMembers, f1, f2,
      RegisteredMessage.setField, unmarshalString]
  · intro m
    have f1 : matchField ["code", "message"] "code" = some "code" := by decide
    have f2 : matchField ["code", "message"] "message" = some "message" := by decide
    simp [DecodeError, Marshal, unmarshalStruct, unmarshalMembers, f1, f2,
      ErrorMessage.setField, unmarshalString]

/-! ## Channel acceptance -/

theorem DecodeError_sendError (conn : Nat) (code message : String) :
    (Manager.sendError conn code message).filterMap Event.errorCode = [code] := by
  have f1 : matchField ["code", "message"] "code" = some "code" := by decide
  have f2 : matchField ["code", "message"] "message" = some "message" := by decide
  simp [Manager.sendError, EncodeMessage, Event.errorCode, DecodeError, Marshal, unmarshalStruct,
    unmarshalMembers, f1, f2, ErrorMessage.setField, unmarshalString]

/-- C6, the claim refuted: a first frame of type `register` with no data is
answered with an error frame whose code is `DECODE_ERROR`, and with no frame
of code `INVALID_MESSAGE`. -/
theorem register_without_data_gets_DECODE_ERROR :
    ((Manager.New Registry.New).HandleWebSocket
      ⟨.ok 1, .ok ⟨TypeRegister, none⟩, "t1", .ok (), []⟩).events.filterMap Event.errorCode
      = ["DECODE_ERROR"] := by
  decide

theorem handleConnection_stops_at_failure (m : Manager) (tunnelConn : Connection)
    (frames : List Message) (e : String) (rest : List (Except String Message)) :
    m.handleConnection tunnelConn (frames.map Except.ok ++ Except.error e :: rest)
      = m.handleConnection tunnelConn (frames.map Except.ok ++ [Except.error e]) ∧
    (m.handleConnection tunnelConn (frames.map Except.ok ++ Except.error e :: rest)).returned
      = true := by
  induction frames generalizing m with
  | nil => simp [Manager.handleConnection]
  | cons msg frames ih =>
    have ih1 := ih (m.handleHTTPResponse msg).1
    have ih2 := ih m
    simp only [List.map_cons, List.cons_append]
    unfold Manager.handleConnection
    split_ifs
    · exact ⟨by rw [ih1.1], ih1.2⟩
    · exact ⟨by rw [ih2.1], ih2.2⟩
    · exact ih2

/-- C6 as amended: a first frame of a type other than `register` is answered
with an error frame of code `INVALID_MESSAGE`, and a `register` frame whose
data is missing or does not decode with an error frame of code `DECODE_ERROR`;
in both cases the channel is then closed, the handler returns, and the
manager, its registry included, is as it was. -/
theorem first_frame_rejected (m : Manager) (env : Accept) (conn : Nat) (msg : Message)
    (hu : env.upgrade = .ok conn) (hf : env.first = .ok msg)
    (hbad : msg.Type' ≠ TypeRegister ∨ ∃ err, DecodeRegister msg = .error err) :
    ∃ message,
      (m.HandleWebSocket env).events
        = Manager.sendError conn
            (if msg.Type' = TypeRegister then "DECODE_ERROR" else "INVALID_MESSAGE") message
          ++ [.close conn] ∧
      (m.HandleWebSocket env).events.filterMap Event.errorCode
        = [if msg.Type' = TypeRegister then "DECODE_ERROR" else "INVALID_MESSAGE"] ∧
      (m.HandleWebSocket env).returned = true ∧
      (m.HandleWebSocket env).manager = m ∧
      (m.HandleWebSocket env).manager.registry = m.registry := by
  by_cases ht : msg.Type' = TypeRegister
  · rcases hbad with hne | ⟨err, herr⟩
    · exact absurd ht hne
    · refine ⟨err, ?_⟩
      have hrun : m.HandleWebSocket env
          = ⟨m, Manager.sendError conn "DECODE_ERROR" err ++ [.close conn], true⟩ := by
        simp [Manager.HandleWebSocket, hu, hf, ht, herr]
      rw [hrun]
      simp only [ht, if_true, List.filterMap_append, DecodeError_sendError]
      simp [Event.errorCode]
  · refine ⟨"Expected registration message", ?_⟩
    have hrun : m.HandleWebSocket env
        = ⟨m, Manager.sendError conn "INVALID_MESSAGE" "Expected registration message"
            ++ [.close conn], true⟩ := by
      simp [Manager.HandleWebSocket, hu, hf, ht]
    rw [hrun]
    simp only [ht, if_false, List.filterMap_append, DecodeError_sendError]
    simp [Event.errorCode]

theorem first_frame_rejected_witness :
    (∃ message,
      ((Manager.New Registry.New).HandleWebSocket
          ⟨.ok 1, .ok ⟨TypePing, none⟩, "t1", .ok (), []⟩).events
        = Manager.sendError 1 "INVALID_MESSAGE" message ++ [.close 1]) ∧
    (∃ message,
      ((Manager.New Registry.New).HandleWebSocket
          ⟨.ok 1, .ok ⟨TypeRegister, some (.str "x")⟩, "t1", .ok (), []⟩).events
        = Manager.sendError 1 "DECODE_ERROR" message ++ [.close 1]) := by
  constructor
  · obtain ⟨message, h, _⟩ := first_frame_rejected (Manager.New Registry.New)
      ⟨.ok 1, .ok ⟨TypePing, none⟩, "t1", .ok (), []⟩ 1 ⟨TypePing, none⟩ rfl rfl
      (Or.inl (by decide))
    exact ⟨message, h⟩
  · obtain ⟨message, h, _⟩ := first_frame_rejected (Manager.New Registry.New)
      ⟨.ok 1, .ok ⟨TypeRegister, some (.str "x")⟩, "t1", .ok (), []⟩ 1
      ⟨TypeRegister, some (.str "x")⟩ rfl rfl (Or.inr ⟨_, rfl⟩)
    exact ⟨message, h⟩

theorem sendError_not_registered (conn : Nat) (code message : String) :
    (Manager.sendError conn code message ++ [Event.close conn]).any Event.isRegistered
      = false := by
  have h : ¬ TypeError = TypeRegistered := by decide
  simp [Manager.sendError, EncodeMessage, Event.isRegistered, h]

/-- C7, the claim refuted: a `register` frame that carries protocol version
`2.0` for a domain without an entry gets the registry entry for its domain
and is sent the `registered` frame. -/
theorem register_with_other_version_accepted :
    ((Manager.New Registry.New).HandleWebSocket
        ⟨.ok 1, .ok ⟨TypeRegister, some (Marshal (.register ⟨"dev.example.com", "2.0"⟩))⟩,
          "t1", .ok (), []⟩).manager.registry.GetTunnel "dev.example.com"
      = some ⟨"dev.example.com", "t1", 1⟩ ∧
    ((Manager.New Registry.New).HandleWebSocket
        ⟨.ok 1, .ok ⟨TypeRegister, some (Marshal (.register ⟨"dev.example.com", "2.0"⟩))⟩,
          "t1", .ok (), []⟩).events.any Event.isRegistered = true := by
  decide

/-- C7 as amended: a new channel proceeds to registration only if its first
frame is a `register` frame whose payload decodes, and the protocol version
in the payload is not examined: a `registered` frame is written only after
such a first frame, and for every such frame, whatever protocol version it
carries, that names a domain without an entry, the first thing written is the
`registered` frame (with the new tunnel id and `https://` + domain) and, when
the handler enters its serving loop, the registry maps the domain to the new
channel. -/
theorem registration_ignores_protocol_version (m : Manager) (env : Accept) (conn : Nat)
    (msg : Message) (hu : env.upgrade = .ok conn) (hf : env.first = .ok msg) :
    ((m.HandleWebSocket env).events.any Event.isRegistered = true →
      msg.Type' = TypeRegister ∧ ∃ reg, DecodeRegister msg = .ok reg) ∧
    (∀ reg : RegisterMessage, msg.Type' = TypeRegister → DecodeRegister msg = .ok reg →
      m.registry.GetTunnel reg.Domain = none → env.registeredWrite = .ok () →
      (∃ rest, (m.HandleWebSocket env).events
          = Event.write conn (some ⟨TypeRegistered,
              some (Marshal (.registered ⟨env.tunnelID, "https://" ++ reg.Domain⟩))⟩) :: rest) ∧
      (env.reads = [] →
        (m.HandleWebSocket env).returned = false ∧
        (m.HandleWebSocket env).manager.registry.GetTunnel reg.Domain
          = some (NewConnection reg.Domain env.tunnelID conn))) := by
  constructor
  · intro hany
    by_cases ht : msg.Type' = TypeRegister
    · refine ⟨ht, ?_⟩
      cases hd : DecodeRegister msg with
      | ok reg => exact ⟨reg, rfl⟩
      | error err =>
        have hrun : m.HandleWebSocket env
            = ⟨m, Manager.sendError conn "DECODE_ERROR" err ++ [.close conn], true⟩ := by
          simp [Manager.HandleWebSocket, hu, hf, ht, hd]
        rw [hrun] at hany
        simp only [sendError_not_registered] at hany
        exact absurd hany (by decide)
    · have hrun : m.HandleWebSocket env
          = ⟨m, Manager.sendError conn "INVALID_MESSAGE" "Expected registration message"
              ++ [.close conn], true⟩ := by
        simp [Manager.HandleWebSocket, hu, hf, ht]
      rw [hrun] at hany
      simp only [sendError_not_registered] at hany
      exact absurd hany (by decide)
  · intro reg ht hd habs hw
    have hreg : m.registry.Register reg.Domain (NewConnection reg.Domain env.tunnelID conn)
        = (Except.ok (), ⟨GoMap.set m.registry.tunnels reg.Domain
            (NewConnection reg.Domain env.tunnelID conn)⟩) := by
      unfold Registry.GetTunnel at habs
      simp [Registry.Register, habs]
    constructor
    · simp only [Manager.HandleWebSocket, hu, hf, ht, hd, hreg, hw, EncodeMessage, ne_eq,
        not_true_eq_false, if_false]
      split_ifs <;> simp
    · intro hreads
      simp [Manager.HandleWebSocket, hu, hf, ht, hd, hreg, hw, EncodeMessage, hreads,
        Manager.handleConnection, Registry.GetTunnel, GoMap.get_set_self]

theorem registration_ignores_protocol_version_witness :
    ((Manager.New Registry.New).HandleWebSocket
        ⟨.ok 1, .ok ⟨TypeRegister, some (Marshal (.register ⟨"dev.example.com", "2.0"⟩))⟩,
          "t1", .ok (), []⟩).manager.registry.GetTunnel "dev.example.com"
      = some (NewConnection "dev.example.com" "t1" 1) :=
  (((registration_ignores_protocol_version (Manager.New Registry.New)
      ⟨.ok 1, .ok ⟨TypeRegister, some (Marshal (.register ⟨"dev.example.com", "2.0"⟩))⟩,
        "t1", .ok (), []⟩ 1
      ⟨TypeRegister, some (Marshal (.register ⟨"dev.example.com", "2.0"⟩))⟩ rfl rfl).2
      ⟨"dev.example.com", "2.0"⟩ rfl (by decide) (by decide) rfl).2 rfl).2

/-- C8: for every `register` frame naming a domain D that already has a
registry entry, the acceptance handler writes an error frame with code
`REGISTRATION_FAILED`, closes the new channel and returns, and the manager is
as it was: the registry still maps D to the first channel's entry, which the
rejected handler has neither replaced nor unregistered. -/
theorem duplicate_domain_rejected (m : Manager) (env : Accept) (conn : Nat) (msg : Message)
    (reg : RegisterMessage) (first : Connection)
    (hu : env.upgrade = .ok conn) (hf : env.first = .ok msg)
    (ht : msg.Type' = TypeRegister) (hd : DecodeRegister msg = .ok reg)
    (he : m.registry.GetTunnel reg.Domain = some first) :
    (m.HandleWebSocket env).events
      = Manager.sendError conn "REGISTRATION_FAILED"
          ("domain " ++ reg.Domain ++ " is already registered") ++ [.close conn] ∧
    (m.HandleWebSocket env).events.filterMap Event.errorCode = ["REGISTRATION_FAILED"] ∧
    (m.HandleWebSocket env).events.any Event.isRegistered = false ∧
    (m.HandleWebSocket env).returned = true ∧
    (m.HandleWebSocket env).manager = m ∧
    (m.HandleWebSocket env).manager.registry.GetTunnel reg.Domain = some first := by
  have hreg : m.registry.Register reg.Domain (NewConnection reg.Domain env.tunnelID conn)
      = (Except.error ("domain " ++ reg.Domain ++ " is already registered"), m.registry) := by
    unfold Registry.GetTunnel at he
    simp [Registry.Register, he]
  have hrun : m.HandleWebSocket env
      = ⟨m, Manager.sendError conn "REGISTRATION_FAILED"
            ("domain " ++ reg.Domain ++ " is already registered") ++ [.close conn], true⟩ := by
    simp [Manager.HandleWebSocket, hu, hf, ht, hd, hreg]
  rw [hrun]
  refine ⟨rfl, ?_, sendError_not_registered _ _ _, rfl, rfl, he⟩
  simp only [List.filterMap_append, DecodeError_sendError]
  simp [Event.errorCode]

theorem duplicate_domain_rejected_witness :
    ((Manager.mk ⟨[("dev.example.com", ⟨"dev.example.com", "t1", 1⟩)]⟩ []).HandleWebSocket
        ⟨.ok 2, .ok ⟨TypeRegister, some (Marshal (.register ⟨"dev.example.com", "1.0"⟩))⟩,
          "t2", .ok (), []⟩).manager.registry.GetTunnel "dev.example.com"
      = some ⟨"dev.example.com", "t1", 1⟩ :=
  (duplicate_domain_rejected (Manager.mk ⟨[("dev.example.com", ⟨"dev.example.com", "t1", 1⟩)]⟩ [])
    ⟨.ok 2, .ok ⟨TypeRegister, some (Marshal (.register ⟨"dev.example.com", "1.0"⟩))⟩,
      "t2", .ok (), []⟩ 2
    ⟨TypeRegister, some (Marshal (.register ⟨"dev.example.com", "1.0"⟩))⟩
    ⟨"dev.example.com", "1.0"⟩ ⟨"dev.example.com", "t1", 1⟩ rfl rfl rfl (by decide)
    (by decide)).2.2.2.2.2

theorem GetTunnel_Unregister_self (r : Registry) (D : String) :
    (r.Unregister D).GetTunnel D = none := by
  unfold Registry.Unregister Registry.GetTunnel
  cases h : GoMap.get r.tunnels D with
  | none => simpa using h
  | some c => simpa using GoMap.get_delete_self r.tunnels D

theorem handleConnection_pending_unchanged (m : Manager) (tunnelConn : Connection)
    (reads : List (Except String Message))
    (h : ∀ f, Except.ok f ∈ reads → f.Type' ≠ TypeHTTPResponse) :
    (m.handleConnection tunnelConn reads).manager.pendingRequests = m.pendingRequests := by
  induction reads generalizing m with
  | nil => rfl
  | cons r reads ih =>
    cases r with
    | error e => rfl
    | ok msg =>
      have hmsg : msg.Type' ≠ TypeHTTPResponse := h msg (List.mem_cons_self _ _)
      have ih' := ih m (fun f hf => h f (List.mem_cons_of_mem _ hf))
      unfold Manager.handleConnection
      split_ifs with h1 h2
      · exact absurd h1 hmsg
      · exact ih'
      · exact ih'

/-- C9: for every channel that reached the serving state for domain D (its
`register` frame decoded, D had no entry, the `registered` frame was written),
when a receive on it fails the handler stops reading (what would come after
the failure has no effect), unregisters D and returns, so that `GetTunnel(D)`
is absent once it has returned. This cleanup does not touch the pending
table: the table is the one the serving loop left, the only event after the
loop is the close of the channel, and when no `http_response` frame was
received the table is the one the handler started with. -/
theorem receive_failure_unregisters (m : Manager) (env : Accept) (conn : Nat) (msg : Message)
    (reg : RegisterMessage) (frames : List Message) (e : String)
    (rest : List (Except String Message))
    (hu : env.upgrade = .ok conn) (hf : env.first = .ok msg)
    (ht : msg.Type' = TypeRegister) (hd : DecodeRegister msg = .ok reg)
    (habs : m.registry.GetTunnel reg.Domain = none) (hw : env.registeredWrite = .ok ())
    (hr : env.reads = frames.map Except.ok ++ Except.error e :: rest) :
    (m.HandleWebSocket env).returned = true ∧
    (m.HandleWebSocket env).manager.registry.GetTunnel reg.Domain = none ∧
    (m.HandleWebSocket env).manager.pendingRequests
      = (Manager.handleConnection
          { m with registry := (m.registry.Register reg.Domain
              (NewConnection reg.Domain env.tunnelID conn)).2 }
          (NewConnection reg.Domain env.tunnelID conn)
          (frames.map Except.ok ++ [Except.error e])).manager.pendingRequests ∧
    (m.HandleWebSocket env).events
      = [Event.write conn (some ⟨TypeRegistered,
            some (Marshal (.registered ⟨env.tunnelID, "https://" ++ reg.Domain⟩))⟩)]
        ++ (Manager.handleConnection
          { m with registry := (m.registry.Register reg.Domain
              (NewConnection reg.Domain env.tunnelID conn)).2 }
          (NewConnection reg.Domain env.tunnelID conn)
          (frames.map Except.ok ++ [Except.error e])).events
        ++ [Event.close conn] ∧
    ((∀ f ∈ frames, f.Type' ≠ TypeHTTPResponse) →
      (m.HandleWebSocket env).manager.pendingRequests = m.pendingRequests) := by
  have hreg : m.registry.Register reg.Domain (NewConnection reg.Domain env.tunnelID conn)
      = (Except.ok (), ⟨GoMap.set m.registry.tunnels reg.Domain
          (NewConnection reg.Domain env.tunnelID conn)⟩) := by
    unfold Registry.GetTunnel at habs
    simp [Registry.Register, habs]
  obtain ⟨hstop, _⟩ := handleConnection_stops_at_failure
    { m with registry := ⟨GoMap.set m.registry.tunnels reg.Domain
        (NewConnection reg.Domain env.tunnelID conn)⟩ }
    (NewConnection reg.Domain env.tunnelID conn) frames e rest
  have hret' := (handleConnection_stops_at_failure
    { m with registry := ⟨GoMap.set m.registry.tunnels reg.Domain
        (NewConnection reg.Domain env.tunnelID conn)⟩ }
    (NewConnection reg.Domain env.tunnelID conn) frames e []).2
  have hrun : m.HandleWebSocket env
      = ⟨{ (Manager.handleConnection
              { m with registry := ⟨GoMap.set m.registry.tunnels reg.Domain
                (NewConnection reg.Domain env.tunnelID conn)⟩ }
              (NewConnection reg.Domain env.tunnelID conn)
              (frames.map Except.ok ++ [Except.error e])).manager with
            registry := (Manager.handleConnection
              { m with registry := ⟨GoMap.set m.registry.tunnels reg.Domain
                (NewConnection reg.Domain env.tunnelID conn)⟩ }
              (NewConnection reg.Domain env.tunnelID conn)
              (frames.map Except.ok ++ [Except.error e])).manager.registry.Unregister
                reg.Domain },
          [Event.write conn (some ⟨TypeRegistered,
              some (Marshal (.registered ⟨env.tunnelID, "https://" ++ reg.Domain⟩))⟩)]
          ++ (Manager.handleConnection
              { m with registry := ⟨GoMap.set m.registry.tunnels reg.Domain
                (NewConnection reg.Domain env.tunnelID conn)⟩ }
              (NewConnection reg.Domain env.tunnelID conn)
              (frames.map Except.ok ++ [Except.error e])).events
          ++ [Event.close conn], true⟩ := by
    simp only [Manager.HandleWebSocket, hu, hf, ht, hd, hreg, hw, EncodeMessage, ne_eq,
      not_true_eq_false, if_false, hr, hstop, hret', if_true]
  rw [hrun, hreg]
  refine ⟨rfl, GetTunnel_Unregister_self _ _, rfl, rfl, ?_⟩
  intro hno
  apply handleConnection_pending_unchanged
  intro f hfm
  simp only [List.mem_append, List.mem_map, List.mem_singleton] at hfm
  rcases hfm with ⟨g, hg, hgf⟩ | hfm
  · cases hgf
    exact hno f hg
  · cases hfm

theorem receive_failure_unregisters_witness :
    ((Manager.mk Registry.New [("req-7", ⟨3, 4⟩)]).HandleWebSocket
        ⟨.ok 1, .ok ⟨TypeRegister, some (Marshal (.register ⟨"dev.example.com", "1.0"⟩))⟩,
          "t1", .ok (), [.ok ⟨TypePing, none⟩, .error "closed", .ok ⟨TypePing, none⟩]⟩).returned
      = true ∧
    ((Manager.mk Registry.New [("req-7", ⟨3, 4⟩)]).HandleWebSocket
        ⟨.ok 1, .ok ⟨TypeRegister, some (Marshal (.register ⟨"dev.example.com", "1.0"⟩))⟩,
          "t1", .ok (), [.ok ⟨TypePing, none⟩, .error "closed", .ok ⟨TypePing, none⟩]⟩
      ).manager.registry.GetTunnel "dev.example.com" = none :=
  have h := receive_failure_unregisters (Manager.mk Registry.New [("req-7", ⟨3, 4⟩)])
    ⟨.ok 1, .ok ⟨TypeRegister, some (Marshal (.register ⟨"dev.example.com", "1.0"⟩))⟩,
      "t1", .ok (), [.ok ⟨TypePing, none⟩, .error "closed", .ok ⟨TypePing, none⟩]⟩ 1
    ⟨TypeRegister, some (Marshal (.register ⟨"dev.example.com", "1.0"⟩))⟩
    ⟨"dev.example.com", "1.0"⟩ [⟨TypePing, none⟩] "closed" [.ok ⟨TypePing, none⟩]
    rfl rfl rfl (by decide) (by decide) rfl rfl
  ⟨h.1, h.2.1⟩

/-! ## Public HTTP ingress -/

theorem send_failure_ne_no_tunnel (e domain : String) :
    "failed to send request to tunnel: " ++ e ≠ "no tunnel found for domain: " ++ domain := by
  intro h
  have h' := congrArg String.data h
  simp only [String.data_append] at h'
  have h2 := congrArg List.head? h'
  simp at h2

theorem send_failure_ne_timeout (e : String) :
    "failed to send request to tunnel: " ++ e ≠ "timeout waiting for response" := by
  intro h
  have h' := congrArg String.data h
  simp only [String.data_append] at h'
  have h2 := congrArg List.head? h'
  simp at h2

theorem timeout_ne_no_tunnel (domain : String) :
    "timeout waiting for response" ≠ "no tunnel found for domain: " ++ domain := by
  intro h
  have h' := congrArg String.data h
  simp only [String.data_append] at h'
  have h2 := congrArg List.head? h'
  simp at h2

theorem utf8EncodeChars_append (a b : List Char) :
    utf8EncodeChars (a ++ b) = utf8EncodeChars a ++ utf8EncodeChars b := by
  induction a with
  | nil => rfl
  | cons c cs ih => simp [utf8EncodeChars, ih, List.append_assoc]

theorem bytesOfString_append (a b : String) :
    bytesOfString (a ++ b) = bytesOfString a ++ bytesOfString b := by
  simp [bytesOfString, String.data_append, utf8EncodeChars_append]

theorem text_line_length_ne_zero (error : String) :
    (Written.text (error ++ "\n")).length ≠ 0 := by
  have h : (bytesOfString "\n").length = 1 := by decide
  simp only [Written.length, bytesOfString_append, List.length_append, h]
  omega

theorem httpError_status (error : String) (code : Int)
    (h1 : 400 ≤ code) (h2 : code ≤ 999) :
    (httpError ResponseWriter.empty error code).status = some code ∧
    (httpError ResponseWriter.empty error code).body = [.text (error ++ "\n")] ∧
    (httpError ResponseWriter.empty error code).panicked = false := by
  have h : ¬ (code < 100 ∨ code > 999) := by omega
  have h' : ¬ (100 ≤ code ∧ code ≤ 199 ∧ code ≠ 101) := by omega
  have h3 : ¬ (100 ≤ code ∧ code ≤ 199) := by omega
  have h4 : ¬ code = 204 := by omega
  have h5 : ¬ code = 304 := by omega
  have hdecl : declaredLength
      (GoMap.set (GoMap.set (GoMap.delete ([] : GoMap String (List String)) "Content-Length")
        "Content-Type" ["text/plain; charset=utf-8"]) "X-Content-Type-Options" ["nosniff"])
      = none := by decide
  simp [httpError, ResponseWriter.WriteHeader, ResponseWriter.Write, ResponseWriter.empty,
    bodyAllowedForStatus, h, h', h3, h4, h5, hdecl, text_line_length_ne_zero]

theorem respond_no_tunnel (domain : String) :
    (respond ResponseWriter.empty domain
      (.error ("no tunnel found for domain: " ++ domain))).status = some 503 ∧
    (respond ResponseWriter.empty domain
      (.error ("no tunnel found for domain: " ++ domain))).body
      = [.text ("No tunnel registered for domain: " ++ domain ++ "\n")] := by
  have h := httpError_status ("No tunnel registered for domain: " ++ domain)
    StatusServiceUnavailable (by decide) (by decide)
  simp only [respond, if_true]
  exact ⟨h.1, h.2.1⟩

theorem respond_timeout (domain : String) :
    (respond ResponseWriter.empty domain (.error "timeout waiting for response")).status
      = some 504 := by
  have h := httpError_status "Gateway timeout" StatusGatewayTimeout (by decide) (by decide)
  simp only [respond, timeout_ne_no_tunnel domain, if_false, if_true]
  exact h.1

theorem respond_other (domain err : String)
    (h1 : err ≠ "no tunnel found for domain: " ++ domain)
    (h2 : err ≠ "timeout waiting for response") :
    (respond ResponseWriter.empty domain (.error err)).status = some 500 := by
  have h := httpError_status "Internal server error" StatusInternalServerError (by decide)
    (by decide)
  simp only [respond, h1, h2, if_false]
  exact h.1

/-- C10: for every domain string and every outcome of the forward, the ingress
maps the outcome as follows. The no-tunnel error gives status 503 with the
body "No tunnel registered for domain: " + domain; the timeout error gives
504; every other error gives 500, and a send failure is such an error whatever
the domain and the failure text are. So in `ServeHTTP`, for a request with a
host and a readable body: no tunnel registered for the host gives 503 with a
body that starts with "No tunnel registered", a failed write of the
`http_request` frame gives 500, and a fired deadline gives 504. -/
theorem forward_outcome_status (m : Manager) (r : Request) (requestID : String)
    (env : Forward) (body : List Byte) (domain : String)
    (hhost : r.Host ≠ "") (hbody : r.Body = .ok body) :
    ((respond ResponseWriter.empty domain
        (.error ("no tunnel found for domain: " ++ domain))).status = some 503 ∧
     (respond ResponseWriter.empty domain
        (.error ("no tunnel found for domain: " ++ domain))).body
        = [.text ("No tunnel registered" ++ (" for domain: " ++ domain ++ "\n"))] ∧
     (respond ResponseWriter.empty domain (.error "timeout waiting for response")).status
        = some 504 ∧
     (∀ err : String, err ≠ "no tunnel found for domain: " ++ domain →
        err ≠ "timeout waiting for response" →
        (respond ResponseWriter.empty domain (.error err)).status = some 500) ∧
     (∀ e : String,
        (respond ResponseWriter.empty domain
          (.error ("failed to send request to tunnel: " ++ e))).status = some 500)) ∧
    (ServeHTTP m r requestID env).1
      = respond ResponseWriter.empty r.Host
          (m.SendHTTPRequest r.Host ⟨requestID, r.Method, r.RequestURI, r.Header, body⟩ env).1 ∧
    (m.registry.GetTunnel r.Host = none →
      (ServeHTTP m r requestID env).1.status = some 503 ∧
      (ServeHTTP m r requestID env).1.body
        = [.text ("No tunnel registered" ++ (" for domain: " ++ r.Host ++ "\n"))]) ∧
    (∀ (tunnelConn : Connection) (e : String), m.registry.GetTunnel r.Host = some tunnelConn →
      env.written = .error e → (ServeHTTP m r requestID env).1.status = some 500) ∧
    (∀ tunnelConn : Connection, m.registry.GetTunnel r.Host = some tunnelConn →
      env.written = .ok () → env.wait = .timeout →
      (ServeHTTP m r requestID env).1.status = some 504) := by
  have hlit : ∀ d : String, "No tunnel registered" ++ (" for domain: " ++ d ++ "\n")
      = "No tunnel registered for domain: " ++ d ++ "\n" := by
    intro d
    have : "No tunnel registered for domain: " = "No tunnel registered" ++ " for domain: " := by
      decide
    rw [this]
    simp only [String.append_assoc]
  have hserve : (ServeHTTP m r requestID env).1
      = respond ResponseWriter.empty r.Host
          (m.SendHTTPRequest r.Host ⟨requestID, r.Method, r.RequestURI, r.Header, body⟩ env).1 := by
    simp [ServeHTTP, hhost, hbody]
  refine ⟨⟨?_, ?_, ?_, ?_, ?_⟩, hserve, ?_, ?_, ?_⟩
  · exact (respond_no_tunnel domain).1
  · rw [hlit]
    exact (respond_no_tunnel domain).2
  · exact respond_timeout domain
  · intro err h1 h2
    exact respond_other domain err h1 h2
  · intro e
    exact respond_other domain _ (send_failure_ne_no_tunnel e domain)
      (send_failure_ne_timeout e)
  · intro hnone
    have hout : (m.SendHTTPRequest r.Host ⟨requestID, r.Method, r.RequestURI, r.Header, body⟩
        env).1 = .error ("no tunnel found for domain: " ++ r.Host) := by
      simp [Manager.SendHTTPRequest, hnone]
    rw [hserve, hout, hlit]
    exact respond_no_tunnel r.Host
  · intro tunnelConn e hsome hwr
    have hout : (m.SendHTTPRequest r.Host ⟨requestID, r.Method, r.RequestURI, r.Header, body⟩
        env).1 = .error ("failed to send request to tunnel: " ++ ("failed to send message: " ++ e)) := by
      simp [Manager.SendHTTPRequest, hsome, hwr, Connection.SendHTTPRequest,
        Connection.SendMessage, EncodeMessage]
    rw [hserve, hout]
    exact respond_other r.Host _ (send_failure_ne_no_tunnel _ _)
      (send_failure_ne_timeout _)
  · intro tunnelConn hsome hwr hwait
    have hout : (m.SendHTTPRequest r.Host ⟨requestID, r.Method, r.RequestURI, r.Header, body⟩
        env).1 = .error "timeout waiting for response" := by
      simp [Manager.SendHTTPRequest, hsome, hwr, hwait, Connection.SendHTTPRequest,
        Connection.SendMessage, EncodeMessage]
    rw [hserve, hout]
    exact respond_timeout r.Host

theorem forward_outcome_status_witness :
    ("unknown.example.com" : String) ≠ "" ∧
    (ServeHTTP (Manager.New Registry.New) ⟨"unknown.example.com", "GET", "/", [], .ok []⟩
        "req-1" ⟨1, 2, .ok (), fun m => m, .timeout⟩).1.status = some 503 ∧
    (∀ e : String,
      (respond ResponseWriter.empty "timeout waiting for response"
        (.error ("failed to send request to tunnel: " ++ e))).status = some 500) :=
  have h := forward_outcome_status (Manager.New Registry.New)
    ⟨"unknown.example.com", "GET", "/", [], .ok []⟩ "req-1"
    ⟨1, 2, .ok (), fun m => m, .timeout⟩ [] "timeout waiting for response" (by decide) rfl
  ⟨by decide, (h.2.2.1 (by decide)).1, h.1.2.2.2.2⟩

/-! ## Response correlation -/

theorem handleHTTPResponse_events (m : Manager) (msg : Message) :
    (m.handleHTTPResponse msg = (m, [])) ∨
    (∃ resp pr, DecodeHTTPResponse msg = .ok resp ∧
      GoMap.get m.pendingRequests resp.RequestID = some pr ∧
      m.handleHTTPResponse msg
        = ({ m with pendingRequests := GoMap.delete m.pendingRequests resp.RequestID },
           [.timerStop pr.Timeout, .deliver pr.ResponseChan resp,
            .chanClose pr.ResponseChan])) := by
  cases hd : DecodeHTTPResponse msg with
  | error e => exact Or.inl (by simp [Manager.handleHTTPResponse, hd])
  | ok resp =>
    cases hg : GoMap.get m.pendingRequests resp.RequestID with
    | none => exact Or.inl (by simp [Manager.handleHTTPResponse, hd, hg])
    | some pr => exact Or.inr ⟨resp, pr, rfl, hg, by simp [Manager.handleHTTPResponse, hd, hg]⟩

theorem PendingOp_apply_get (m : Manager) (op : PendingOp) (k : String) (v : PendingRequest)
    (h : GoMap.get (PendingOp.apply m op).1.pendingRequests k = some v) :
    GoMap.get m.pendingRequests k = some v := by
  cases op with
  | response msg =>
    rcases handleHTTPResponse_events m msg with h0 | ⟨resp, pr, _, _, h1⟩
    · simpa [PendingOp.apply, h0] using h
    · simp only [PendingOp.apply, h1] at h
      exact GoMap.get_delete_eq_some _ _ _ _ h
  | expiry requestID =>
    simp only [PendingOp.apply, Manager.expire] at h
    exact GoMap.get_delete_eq_some _ _ _ _ h

theorem PendingOp_apply_deliver (m : Manager) (op : PendingOp) (chan : Nat)
    (resp : HTTPResponseMessage) (h : Event.deliver chan resp ∈ (PendingOp.apply m op).2) :
    ∃ pr, GoMap.get m.pendingRequests resp.RequestID = some pr ∧ pr.ResponseChan = chan := by
  cases op with
  | response msg =>
    rcases handleHTTPResponse_events m msg with h0 | ⟨resp', pr, _, hg, h1⟩
    · simp [PendingOp.apply, h0] at h
    · simp only [PendingOp.apply, h1, List.mem_cons, List.mem_singleton, List.not_mem_nil,
        or_false] at h
      rcases h with h | h | h
      · cases h
      · cases h
        exact ⟨pr, hg, rfl⟩
      · cases h
  | expiry requestID => simp [PendingOp.apply] at h

theorem PendingOp_run_deliver (m : Manager) (ops : List PendingOp) (chan : Nat)
    (resp : HTTPResponseMessage) (h : Event.deliver chan resp ∈ (PendingOp.run m ops).2) :
    ∃ pr, GoMap.get m.pendingRequests resp.RequestID = some pr ∧ pr.ResponseChan = chan := by
  induction ops generalizing m with
  | nil => simp [PendingOp.run] at h
  | cons op ops ih =>
    simp only [PendingOp.run, List.mem_append] at h
    rcases h with h | h
    · exact PendingOp_apply_deliver m op chan resp h
    · obtain ⟨pr, hg, hc⟩ := ih _ h
      exact ⟨pr, PendingOp_apply_get m op _ _ hg, hc⟩

theorem PendingOp_apply_absent (m : Manager) (op : PendingOp) (R : String)
    (h : GoMap.get m.pendingRequests R = none) :
    GoMap.get (PendingOp.apply m op).1.pendingRequests R = none ∧
    (PendingOp.apply m op).2.filter (Event.deliversFor R) = [] := by
  constructor
  · cases hg : GoMap.get (PendingOp.apply m op).1.pendingRequests R with
    | none => rfl
    | some v =>
      have := PendingOp_apply_get m op R v hg
      rw [h] at this
      cases this
  · cases op with
    | response msg =>
      rcases handleHTTPResponse_events m msg with h0 | ⟨resp, pr, _, hg, h1⟩
      · simp [PendingOp.apply, h0]
      · have hne : ¬ resp.RequestID = R := by
          intro heq
          rw [heq, h] at hg
          cases hg
        simp [PendingOp.apply, h1, Event.deliversFor, hne]
    | expiry requestID => simp [PendingOp.apply]

theorem PendingOp_run_absent (m : Manager) (ops : List PendingOp) (R : String)
    (h : GoMap.get m.pendingRequests R = none) :
    GoMap.get (PendingOp.run m ops).1.pendingRequests R = none ∧
    (PendingOp.run m ops).2.filter (Event.deliversFor R) = [] := by
  induction ops generalizing m with
  | nil => exact ⟨h, rfl⟩
  | cons op ops ih =>
    obtain ⟨h1, h2⟩ := PendingOp_apply_absent m op R h
    obtain ⟨h3, h4⟩ := ih _ h1
    simp only [PendingOp.run, List.filter_append, h2, h4, List.append_nil]
    exact ⟨h3, trivial⟩

theorem PendingOp_run_append (m : Manager) (a b : List PendingOp) :
    PendingOp.run m (a ++ b)
      = ((PendingOp.run (PendingOp.run m a).1 b).1,
         (PendingOp.run m a).2 ++ (PendingOp.run (PendingOp.run m a).1 b).2) := by
  induction a generalizing m with
  | nil => simp [PendingOp.run]
  | cons op a ih => simp [PendingOp.run, ih, List.append_assoc]

theorem PendingOp_run_at_most_once (m : Manager) (ops : List PendingOp) (R : String) :
    ((PendingOp.run m ops).2.filter (Event.deliversFor R)).length ≤ 1 := by
  induction ops generalizing m with
  | nil => simp [PendingOp.run]
  | cons op ops ih =>
    simp only [PendingOp.run, List.filter_append, List.length_append]
    cases op with
    | response msg =>
      rcases handleHTTPResponse_events m msg with h0 | ⟨resp, pr, _, _, h1⟩
      · have := ih m
        simp only [PendingOp.apply, h0, List.filter_nil, List.length_nil, Nat.zero_add]
        exact this
      · by_cases hR : resp.RequestID = R
        · have habs : GoMap.get (PendingOp.apply m (.response msg)).1.pendingRequests R
              = none := by
            simp only [PendingOp.apply, h1, ← hR]
            exact GoMap.get_delete_self _ _
          have h2 := (PendingOp_run_absent _ ops R habs).2
          rw [h2]
          simp [PendingOp.apply, h1, Event.deliversFor, hR]
        · have := ih (PendingOp.apply m (.response msg)).1
          simp only [PendingOp.apply, h1] at this ⊢
          simp only [List.filter_cons, Event.deliversFor, hR, decide_False, Bool.false_eq_true,
            if_false, List.filter_nil, List.length_nil, Nat.zero_add]
          exact this
    | expiry requestID =>
      have := ih (PendingOp.apply m (.expiry requestID)).1
      simp only [PendingOp.apply, List.filter_nil, List.length_nil, Nat.zero_add] at this ⊢
      exact this

theorem PendingOp_removed_after (m : Manager) (R : String) (op : PendingOp)
    (hop : op = .expiry R ∨
      ∃ msg resp, op = .response msg ∧ DecodeHTTPResponse msg = .ok resp ∧ resp.RequestID = R) :
    GoMap.get (PendingOp.apply m op).1.pendingRequests R = none := by
  rcases hop with rfl | ⟨msg, resp, rfl, hd, hR⟩
  · exact GoMap.get_delete_self _ _
  · subst hR
    simp only [PendingOp.apply, Manager.handleHTTPResponse, hd]
    cases hg : GoMap.get m.pendingRequests resp.RequestID with
    | none => simpa using hg
    | some pr => simpa using GoMap.get_delete_self m.pendingRequests resp.RequestID

/-- C15: for every sequence of `http_response` arrivals and deadline expiries
applied to the pending table, a response is delivered only into the slot
installed under its request id, and for every request id R at most one
response is delivered: once a response for R has arrived, or R's timeout
removal has been made, R is no longer in the table and nothing that follows
delivers a response for R. -/
theorem response_delivered_at_most_once (m : Manager) (ops before after : List PendingOp)
    (R : String) (op : PendingOp) :
    (∀ (chan : Nat) (resp : HTTPResponseMessage),
      Event.deliver chan resp ∈ (PendingOp.run m ops).2 →
      ∃ pr, GoMap.get m.pendingRequests resp.RequestID = some pr ∧ pr.ResponseChan = chan) ∧
    ((PendingOp.run m ops).2.filter (Event.deliversFor R)).length ≤ 1 ∧
    ((op = .expiry R ∨
        ∃ msg resp, op = .response msg ∧ DecodeHTTPResponse msg = .ok resp ∧
          resp.RequestID = R) →
      GoMap.get (PendingOp.run m (before ++ [op])).1.pendingRequests R = none ∧
      (PendingOp.run (PendingOp.run m (before ++ [op])).1 after).2.filter (Event.deliversFor R)
        = [] ∧
      GoMap.get (PendingOp.run m (before ++ op :: after)).1.pendingRequests R = none) := by
  refine ⟨fun chan resp h => PendingOp_run_deliver m ops chan resp h,
    PendingOp_run_at_most_once m ops R, ?_⟩
  intro hop
  have h1 : GoMap.get (PendingOp.run m (before ++ [op])).1.pendingRequests R = none := by
    rw [PendingOp_run_append]
    simp only [PendingOp.run]
    exact PendingOp_removed_after _ R op hop
  have h2 := PendingOp_run_absent _ after R h1
  refine ⟨h1, h2.2, ?_⟩
  have : before ++ op :: after = (before ++ [op]) ++ after := by simp
  rw [this, PendingOp_run_append]
  exact h2.1

theorem response_delivered_at_most_once_witness :
    ((PendingOp.run (Manager.mk Registry.New [("req-1", ⟨5, 6⟩)])
        [.response ⟨TypeHTTPResponse, some (Marshal (.httpResponse ⟨"req-1", 200, [], []⟩))⟩,
         .response ⟨TypeHTTPResponse, some (Marshal (.httpResponse ⟨"req-1", 404, [], []⟩))⟩]
      ).2.filter (Event.deliversFor "req-1")).length ≤ 1 ∧
    GoMap.get (PendingOp.run (Manager.mk Registry.New [("req-1", ⟨5, 6⟩)])
        ([] ++ [.expiry "req-1"])).1.pendingRequests "req-1" = none :=
  have h := response_delivered_at_most_once (Manager.mk Registry.New [("req-1", ⟨5, 6⟩)])
    [.response ⟨TypeHTTPResponse, some (Marshal (.httpResponse ⟨"req-1", 200, [], []⟩))⟩,
     .response ⟨TypeHTTPResponse, some (Marshal (.httpResponse ⟨"req-1", 404, [], []⟩))⟩]
    [] [] "req-1" (.expiry "req-1")
  ⟨h.2.1, (h.2.2 (Or.inl rfl)).1⟩

/-- C16: for every `http_response` frame whose request id is not in the pending
table (for example a late response after its request timed out),
`handleHTTPResponse` returns with the manager, its pending table included,
unchanged and with no event at all: nothing is delivered into any slot, no
timer is stopped and no channel is closed. -/
theorem late_response_dropped (m : Manager) (msg : Message) (resp : HTTPResponseMessage)
    (hd : DecodeHTTPResponse msg = .ok resp)
    (habs : GoMap.get m.pendingRequests resp.RequestID = none) :
    m.handleHTTPResponse msg = (m, []) ∧
    (m.handleHTTPResponse msg).1.pendingRequests = m.pendingRequests ∧
    (∀ (chan : Nat) (r : HTTPResponseMessage),
      Event.deliver chan r ∉ (m.handleHTTPResponse msg).2) := by
  have h : m.handleHTTPResponse msg = (m, []) := by
    simp [Manager.handleHTTPResponse, hd, habs]
  rw [h]
  exact ⟨rfl, rfl, fun _ _ hmem => by cases hmem⟩

theorem late_response_dropped_witness :
    (Manager.mk Registry.New [("req-2", ⟨5, 6⟩)]).handleHTTPResponse
        ⟨TypeHTTPResponse, some (Marshal (.httpResponse ⟨"req-1", 200, [], [104, 105]⟩))⟩
      = (Manager.mk Registry.New [("req-2", ⟨5, 6⟩)], []) :=
  (late_response_dropped (Manager.mk Registry.New [("req-2", ⟨5, 6⟩)])
    ⟨TypeHTTPResponse, some (Marshal (.httpResponse ⟨"req-1", 200, [], [104, 105]⟩))⟩
    ⟨"req-1", 200, [], [104, 105]⟩ (by decide) (by decide)).1

/-- C17: whenever `SendHTTPRequest` returns an error after having installed a
pending entry, because the write of the `http_request` frame failed or because
the deadline fired, the pending table holds no entry for the request's id when
it returns; and when it returns the no-tunnel error it has installed nothing:
the manager is as it was and there is no event. An error is returned in these
three cases only. -/
theorem SendHTTPRequest_error_leaves_no_pending (m : Manager) (domain : String)
    (req : HTTPRequestMessage) (env : Forward) :
    (m.registry.GetTunnel domain = none →
      m.SendHTTPRequest domain req env
        = (.error ("no tunnel found for domain: " ++ domain), m, [])) ∧
    (∀ (tunnelConn : Connection) (e : String), m.registry.GetTunnel domain = some tunnelConn →
      env.written = .error e →
      (m.SendHTTPRequest domain req env).1
        = .error ("failed to send request to tunnel: " ++ ("failed to send message: " ++ e)) ∧
      GoMap.get (m.SendHTTPRequest domain req env).2.1.pendingRequests req.RequestID = none) ∧
    (∀ tunnelConn : Connection, m.registry.GetTunnel domain = some tunnelConn →
      env.written = .ok () → env.wait = .timeout →
      (m.SendHTTPRequest domain req env).1 = .error "timeout waiting for response" ∧
      GoMap.get (m.SendHTTPRequest domain req env).2.1.pendingRequests req.RequestID = none) ∧
    (∀ err : String, (m.SendHTTPRequest domain req env).1 = .error err →
      (m.registry.GetTunnel domain = none ∧ (m.SendHTTPRequest domain req env).2.1 = m) ∨
      ((m.registry.GetTunnel domain).isSome = true ∧
        GoMap.get (m.SendHTTPRequest domain req env).2.1.pendingRequests req.RequestID
          = none)) := by
  refine ⟨?_, ?_, ?_, ?_⟩
  · intro hnone
    simp [Manager.SendHTTPRequest, hnone]
  · intro tunnelConn e hsome hwr
    simp [Manager.SendHTTPRequest, hsome, hwr, Connection.SendHTTPRequest,
      Connection.SendMessage, EncodeMessage, GoMap.get_delete_self]
  · intro tunnelConn hsome hwr hwait
    simp [Manager.SendHTTPRequest, hsome, hwr, hwait, Connection.SendHTTPRequest,
      Connection.SendMessage, EncodeMessage, GoMap.get_delete_self]
  · intro err herr
    cases hg : m.registry.GetTunnel domain with
    | none =>
      left
      simp [Manager.SendHTTPRequest, hg]
    | some tunnelConn =>
      right
      refine ⟨rfl, ?_⟩
      cases hwr : env.written with
      | error e =>
        simp [Manager.SendHTTPRequest, hg, hwr, Connection.SendHTTPRequest,
          Connection.SendMessage, EncodeMessage, GoMap.get_delete_self]
      | ok u =>
        cases hwait : env.wait with
        | timeout =>
          simp [Manager.SendHTTPRequest, hg, hwr, hwait, Connection.SendHTTPRequest,
            Connection.SendMessage, EncodeMessage, GoMap.get_delete_self]
        | response resp =>
          simp [Manager.SendHTTPRequest, hg, hwr, hwait, Connection.SendHTTPRequest,
            Connection.SendMessage, EncodeMessage] at herr

theorem SendHTTPRequest_error_leaves_no_pending_witness :
    GoMap.get ((Manager.mk ⟨[("dev.example.com", ⟨"dev.example.com", "t1", 1⟩)]⟩
        [("req-1", ⟨9, 9⟩)]).SendHTTPRequest "dev.example.com"
        ⟨"req-1", "GET", "/", [], []⟩ ⟨5, 6, .ok (), fun m => m, .timeout⟩).2.1.pendingRequests
      "req-1" = none :=
  ((SendHTTPRequest_error_leaves_no_pending
      (Manager.mk ⟨[("dev.example.com", ⟨"dev.example.com", "t1", 1⟩)]⟩ [("req-1", ⟨9, 9⟩)])
      "dev.example.com" ⟨"req-1", "GET", "/", [], []⟩
      ⟨5, 6, .ok (), fun m => m, .timeout⟩).2.2.1
    ⟨"dev.example.com", "t1", 1⟩ (by decide) rfl rfl).2

/-! ## What the ingress writes on success -/

theorem respond_ok (domain : String) (resp : HTTPResponseMessage)
    (h1 : 200 ≤ resp.StatusCode) (h2 : resp.StatusCode ≤ 999) :
    (respond ResponseWriter.empty domain (.ok resp)).status = some resp.StatusCode ∧
    (respond ResponseWriter.empty domain (.ok resp)).panicked = false ∧
    (respond ResponseWriter.empty domain (.ok resp)).header
      = resp.Headers.foldl
          (fun acc e => e.2.foldl (fun acc' value => HeaderAdd acc' e.1 value) acc) [] ∧
    (respond ResponseWriter.empty domain (.ok resp)).body
      = (if resp.Body.length > 0 ∧ bodyAllowedForStatus resp.StatusCode = true ∧
            (∀ declared : Int,
              declaredLength (resp.Headers.foldl
                (fun acc e => e.2.foldl (fun acc' value => HeaderAdd acc' e.1 value) acc) [])
                = some declared → (resp.Body.length : Int) ≤ declared)
          then [.bytes resp.Body] else []) := by
  have h : ¬ (resp.StatusCode < 100 ∨ resp.StatusCode > 999) := by omega
  have h' : ¬ (100 ≤ resp.StatusCode ∧ resp.StatusCode ≤ 199 ∧ resp.StatusCode ≠ 101) := by
    omega
  by_cases hb : resp.Body.length > 0
  · have hb' : ¬ resp.Body.length = 0 := by omega
    have hb'' : ¬ resp.Body = [] := fun hnil => hb' (by rw [hnil]; rfl)
    by_cases ha : bodyAllowedForStatus resp.StatusCode = true
    · cases hdl : declaredLength (resp.Headers.foldl
          (fun acc e => e.2.foldl (fun acc' value => HeaderAdd acc' e.1 value) acc) []) with
      | none =>
        simp [respond, ResponseWriter.WriteHeader, ResponseWriter.Write, ResponseWriter.empty,
          Written.length, h, h', hb, hb', hb'', ha, hdl]
      | some declared =>
        by_cases hle : (resp.Body.length : Int) ≤ declared
        · have hgt : ¬ declared < (resp.Body.length : Int) := by omega
          simp [respond, ResponseWriter.WriteHeader, ResponseWriter.Write,
            ResponseWriter.empty, Written.length, h, h', hb, hb', hb'', ha, hdl, hle, hgt]
        · have hgt : declared < (resp.Body.length : Int) := by omega
          simp [respond, ResponseWriter.WriteHeader, ResponseWriter.Write,
            ResponseWriter.empty, Written.length, h, h', hb, hb', hb'', ha, hdl, hle, hgt]
    · simp [respond, ResponseWriter.WriteHeader, ResponseWriter.Write, ResponseWriter.empty,
        Written.length, h, h', hb, hb', hb'', ha]
  · simp [respond, ResponseWriter.WriteHeader, ResponseWriter.empty, h, h', hb]

/-- C19, the claim refuted: an `http_response` frame for a pending request id
whose status code is 0 is delivered into the waiting slot, and so is one whose
status code is 700. -/
theorem response_with_status_0_delivered :
    deliveredStatus
        ((Manager.mk Registry.New [("req-1", ⟨5, 6⟩)]).handleHTTPResponse
          ⟨TypeHTTPResponse, some (Marshal (.httpResponse ⟨"req-1", 0, [], []⟩))⟩).2 = [0] ∧
    deliveredStatus
        ((Manager.mk Registry.New [("req-1", ⟨5, 6⟩)]).handleHTTPResponse
          ⟨TypeHTTPResponse, some (Marshal (.httpResponse ⟨"req-1", 700, [], []⟩))⟩).2
      = [700] := by
  decide

/-- C19 as amended: the multiplexer does not examine the status code. Every
decodable `http_response` frame whose request id is pending is delivered into
the waiting slot as decoded, with the status code it carries, whatever that
is; and the ingress gives the caller's response the delivered status code
whenever that code is from 200 to 999, so also above 599. -/
theorem response_delivered_whatever_status (m : Manager) (msg : Message)
    (resp : HTTPResponseMessage) (pr : PendingRequest) (domain : String)
    (hd : DecodeHTTPResponse msg = .ok resp)
    (hp : GoMap.get m.pendingRequests resp.RequestID = some pr) :
    (m.handleHTTPResponse msg).2
      = [.timerStop pr.Timeout, .deliver pr.ResponseChan resp, .chanClose pr.ResponseChan] ∧
    deliveredStatus (m.handleHTTPResponse msg).2 = [resp.StatusCode] ∧
    (200 ≤ resp.StatusCode → resp.StatusCode ≤ 999 →
      (respond ResponseWriter.empty domain (.ok resp)).status = some resp.StatusCode) := by
  have h : (m.handleHTTPResponse msg).2
      = [.timerStop pr.Timeout, .deliver pr.ResponseChan resp,
         .chanClose pr.ResponseChan] := by
    simp [Manager.handleHTTPResponse, hd, hp]
  rw [h]
  exact ⟨rfl, rfl, fun h1 h2 => (respond_ok domain resp h1 h2).1⟩

theorem response_delivered_whatever_status_witness :
    (respond ResponseWriter.empty "dev.example.com" (.ok ⟨"req-1", 700, [], []⟩)).status
      = some 700 :=
  (response_delivered_whatever_status (Manager.mk Registry.New [("req-1", ⟨5, 6⟩)])
    ⟨TypeHTTPResponse, some (Marshal (.httpResponse ⟨"req-1", 700, [], []⟩))⟩
    ⟨"req-1", 700, [], []⟩ ⟨5, 6⟩ "dev.example.com" (by decide) (by decide)).2.2
    (by decide) (by decide)

/-! ## Copying a header map with `Header.Add` -/

theorem getD_HeaderAdd (h : GoMap String (List String)) (key value name : String) :
    (GoMap.get (HeaderAdd h key value) name).getD []
      = (GoMap.get h name).getD []
        ++ (if CanonicalMIMEHeaderKey key = name then [value] else []) := by
  unfold HeaderAdd
  by_cases hn : CanonicalMIMEHeaderKey key = name
  · subst hn
    cases hg : GoMap.get h (CanonicalMIMEHeaderKey key) with
    | none => simp [hg, GoMap.get_set_self]
    | some values => simp [hg, GoMap.get_set_self]
  · cases hg : GoMap.get h (CanonicalMIMEHeaderKey key) with
    | none => simp [hg, GoMap.get_set_other _ _ _ _ hn, hn]
    | some values => simp [hg, GoMap.get_set_other _ _ _ _ hn, hn]

theorem getD_HeaderAdd_values (h : GoMap String (List String)) (key name : String)
    (values : List String) :
    (GoMap.get (values.foldl (fun acc value => HeaderAdd acc key value) h) name).getD []
      = (GoMap.get h name).getD []
        ++ (if CanonicalMIMEHeaderKey key = name then values else []) := by
  induction values generalizing h with
  | nil => simp
  | cons v rest ih =>
    rw [List.foldl_cons, ih, getD_HeaderAdd]
    by_cases hn : CanonicalMIMEHeaderKey key = name
    · simp [hn]
    · simp [hn]

theorem getD_copy_headers (src : List (String × List String))
    (h : GoMap String (List String)) (name : String) :
    (GoMap.get (src.foldl
        (fun acc e => e.2.foldl (fun acc' value => HeaderAdd acc' e.1 value) acc) h) name).getD []
      = (GoMap.get h name).getD [] ++ valuesUnder name src := by
  induction src generalizing h with
  | nil => simp [valuesUnder]
  | cons e rest ih =>
    rw [List.foldl_cons, ih, getD_HeaderAdd_values]
    simp [valuesUnder, List.append_assoc]

theorem valuesUnder_of_not_mem (name : String) (src : List (String × List String))
    (h : ∀ e ∈ src, CanonicalMIMEHeaderKey e.1 ≠ name) : valuesUnder name src = [] := by
  induction src with
  | nil => rfl
  | cons e rest ih =>
    have h1 := h e (List.mem_cons_self _ _)
    have h2 := ih (fun e' he' => h e' (List.mem_cons_of_mem _ he'))
    simp [valuesUnder, h1, h2]

theorem valuesUnder_unique (src : List (String × List String)) (key : String)
    (values : List String) (hmem : (key, values) ∈ src) (hnd : (GoMap.keys src).Nodup)
    (hcan : ∀ e ∈ src, e.1 ≠ key → CanonicalMIMEHeaderKey e.1 ≠ CanonicalMIMEHeaderKey key) :
    valuesUnder (CanonicalMIMEHeaderKey key) src = values := by
  induction src with
  | nil => cases hmem
  | cons e rest ih =>
    simp only [GoMap.keys, List.map_cons, List.nodup_cons] at hnd
    rcases List.mem_cons.mp hmem with heq | hin
    · subst heq
      have hrest : valuesUnder (CanonicalMIMEHeaderKey key) rest = [] := by
        apply valuesUnder_of_not_mem
        intro e' he'
        apply hcan e' (List.mem_cons_of_mem _ he')
        intro hk
        apply hnd.1
        have hin' : e'.1 ∈ List.map Prod.fst rest := List.mem_map_of_mem Prod.fst he'
        rw [hk] at hin'
        exact hin'
      simp [valuesUnder, hrest]
    · have hne : e.1 ≠ key := by
        intro hk
        apply hnd.1
        have hin' : (key, values).1 ∈ List.map Prod.fst rest :=
          List.mem_map_of_mem Prod.fst hin
        rw [hk]
        exact hin'
      have h1 := hcan e (List.mem_cons_self _ _) hne
      have h2 := ih hin hnd.2 (fun e' he' => hcan e' (List.mem_cons_of_mem _ he'))
      simp [valuesUnder, h1, h2]

theorem ServeHTTP_forwards (m : Manager) (r : Request) (requestID : String) (env : Forward)
    (body : List Byte) (hhost : r.Host ≠ "") (hbody : r.Body = .ok body) :
    ServeHTTP m r requestID env
      = (respond ResponseWriter.empty r.Host
          (m.SendHTTPRequest r.Host ⟨requestID, r.Method, r.RequestURI, r.Header, body⟩ env).1,
         (m.SendHTTPRequest r.Host ⟨requestID, r.Method, r.RequestURI, r.Header, body⟩ env).2.1,
         (m.SendHTTPRequest r.Host ⟨requestID, r.Method, r.RequestURI, r.Header, body⟩
            env).2.2) := by
  simp [ServeHTTP, hhost, hbody]

theorem authority_with_port_nonempty (D port : String) : D ++ ":" ++ port ≠ "" := by
  intro h
  have h' := congrArg String.length h
  simp only [String.length_append] at h'
  have h1 : ":".length = 1 := by decide
  have h0 : "".length = 0 := by decide
  omega

/-- C14, the claim refuted: with a tunnel registered for `dev.example.com`, a
request whose authority is `dev.example.com:8443` is looked up under the whole
authority and answered 503, no tunnel being registered under that string. -/
theorem authority_port_kept_in_lookup :
    (Registry.mk [("dev.example.com", ⟨"dev.example.com", "t1", 1⟩)]).GetTunnel
        "dev.example.com" = some ⟨"dev.example.com", "t1", 1⟩ ∧
    (ServeHTTP (Manager.mk ⟨[("dev.example.com", ⟨"dev.example.com", "t1", 1⟩)]⟩ [])
        ⟨"dev.example.com:8443", "GET", "/", [], .ok []⟩ "req-1"
        ⟨5, 6, .ok (), fun m => m, .response ⟨"req-1", 200, [], []⟩⟩).1.status = some 503 ∧
    (ServeHTTP (Manager.mk ⟨[("dev.example.com", ⟨"dev.example.com", "t1", 1⟩)]⟩ [])
        ⟨"dev.example.com:8443", "GET", "/", [], .ok []⟩ "req-1"
        ⟨5, 6, .ok (), fun m => m, .response ⟨"req-1", 200, [], []⟩⟩).1.body
      = [.text "No tunnel registered for domain: dev.example.com:8443\n"] := by
  decide

/-- C14 as amended: the ingress routes on the request authority as it is. A
request with an empty authority is answered 400 without any forward (the
manager is untouched and there is no event). For every other request the
domain passed to the multiplexer is the whole authority: for an authority
"D:port" the lookup key is "D:port", port included, so that the request is
answered 503 with no forward whenever no tunnel is registered under that
whole string, whatever is registered for D. -/
theorem ingress_routes_on_whole_authority (m : Manager) (r : Request) (requestID : String)
    (env : Forward) :
    (r.Host = "" →
      (ServeHTTP m r requestID env).1.status = some 400 ∧
      (ServeHTTP m r requestID env).2.1 = m ∧ (ServeHTTP m r requestID env).2.2 = []) ∧
    (∀ body : List Byte, r.Host ≠ "" → r.Body = .ok body →
      ServeHTTP m r requestID env
        = (respond ResponseWriter.empty r.Host
            (m.SendHTTPRequest r.Host ⟨requestID, r.Method, r.RequestURI, r.Header, body⟩
              env).1,
           (m.SendHTTPRequest r.Host ⟨requestID, r.Method, r.RequestURI, r.Header, body⟩
              env).2.1,
           (m.SendHTTPRequest r.Host ⟨requestID, r.Method, r.RequestURI, r.Header, body⟩
              env).2.2)) ∧
    (∀ (body : List Byte) (D port : String), r.Host = D ++ ":" ++ port → r.Body = .ok body →
      m.registry.GetTunnel (D ++ ":" ++ port) = none →
      (ServeHTTP m r requestID env).1.status = some 503 ∧
      (ServeHTTP m r requestID env).2.1 = m ∧ (ServeHTTP m r requestID env).2.2 = []) := by
  refine ⟨?_, ?_, ?_⟩
  · intro hempty
    have h := httpError_status "Missing Host header" StatusBadRequest (by decide) (by decide)
    have hs : ServeHTTP m r requestID env
        = (httpError ResponseWriter.empty "Missing Host header" StatusBadRequest, m, []) := by
      simp [ServeHTTP, hempty]
    rw [hs]
    exact ⟨h.1, rfl, rfl⟩
  · intro body hhost hbody
    exact ServeHTTP_forwards m r requestID env body hhost hbody
  · intro body D port hauth hbody hnone
    have hhost : r.Host ≠ "" := by
      rw [hauth]
      exact authority_with_port_nonempty D port
    rw [ServeHTTP_forwards m r requestID env body hhost hbody]
    rw [← hauth] at hnone
    have hout : m.SendHTTPRequest r.Host ⟨requestID, r.Method, r.RequestURI, r.Header, body⟩ env
        = (.error ("no tunnel found for domain: " ++ r.Host), m, []) := by
      simp [Manager.SendHTTPRequest, hnone]
    rw [hout]
    exact ⟨(respond_no_tunnel r.Host).1, rfl, rfl⟩

theorem ingress_routes_on_whole_authority_witness :
    (ServeHTTP (Manager.mk ⟨[("dev.example.com", ⟨"dev.example.com", "t1", 1⟩)]⟩ [])
        ⟨"", "GET", "/", [], .ok []⟩ "req-1"
        ⟨5, 6, .ok (), fun m => m, .timeout⟩).1.status = some 400 ∧
    (ServeHTTP (Manager.mk ⟨[("dev.example.com", ⟨"dev.example.com", "t1", 1⟩)]⟩ [])
        ⟨"dev.example.com:8443", "GET", "/", [], .ok []⟩ "req-1"
        ⟨5, 6, .ok (), fun m => m, .timeout⟩).1.status = some 503 :=
  have h := ingress_routes_on_whole_authority
    (Manager.mk ⟨[("dev.example.com", ⟨"dev.example.com", "t1", 1⟩)]⟩ [])
    ⟨"", "GET", "/", [], .ok []⟩ "req-1" ⟨5, 6, .ok (), fun m => m, .timeout⟩
  have h' := ingress_routes_on_whole_authority
    (Manager.mk ⟨[("dev.example.com", ⟨"dev.example.com", "t1", 1⟩)]⟩ [])
    ⟨"dev.example.com:8443", "GET", "/", [], .ok []⟩ "req-1"
    ⟨5, 6, .ok (), fun m => m, .timeout⟩
  ⟨(h.1 rfl).1, (h'.2.2 [] "dev.example.com" "8443" (by decide) rfl (by decide)).1⟩

/-! ## Client dispatcher -/

theorem ProxyRequest_not_built (p : Proxy) (req : HTTPRequestMessage) (env : Loopback)
    (e : String) (h : NewRequest req.Method (p.localURL ++ req.Path) req.Body env = .error e) :
    p.ProxyRequest req env = (.error ("failed to create request: " ++ e), none) := by
  simp [Proxy.ProxyRequest, h]

theorem ProxyRequest_not_executed (p : Proxy) (req : HTTPRequestMessage) (env : Loopback)
    (httpReq0 : OutRequest) (e : String)
    (h : NewRequest req.Method (p.localURL ++ req.Path) req.Body env = .ok httpReq0)
    (hdo : env.roundTrip (withHeaders httpReq0 req) = .error e) :
    p.ProxyRequest req env
      = (.error ("failed to execute request: " ++ e), some (withHeaders httpReq0 req)) := by
  unfold withHeaders at hdo
  simp [Proxy.ProxyRequest, h, hdo, withHeaders]

theorem ProxyRequest_not_read (p : Proxy) (req : HTTPRequestMessage) (env : Loopback)
    (httpReq0 : OutRequest) (httpResp : LocalResponse) (e : String)
    (h : NewRequest req.Method (p.localURL ++ req.Path) req.Body env = .ok httpReq0)
    (hdo : env.roundTrip (withHeaders httpReq0 req) = .ok httpResp)
    (hbody : httpResp.Body = .error e) :
    p.ProxyRequest req env
      = (.error ("failed to read response body: " ++ e), some (withHeaders httpReq0 req)) := by
  unfold withHeaders at hdo
  simp [Proxy.ProxyRequest, h, hdo, hbody, withHeaders]

theorem ProxyRequest_answered (p : Proxy) (req : HTTPRequestMessage) (env : Loopback)
    (httpReq0 : OutRequest) (httpResp : LocalResponse) (body : List Byte)
    (h : NewRequest req.Method (p.localURL ++ req.Path) req.Body env = .ok httpReq0)
    (hdo : env.roundTrip (withHeaders httpReq0 req) = .ok httpResp)
    (hbody : httpResp.Body = .ok body) :
    p.ProxyRequest req env
      = (.ok ⟨req.RequestID, httpResp.StatusCode, httpResp.Header, body⟩,
         some (withHeaders httpReq0 req)) := by
  unfold withHeaders at hdo
  simp [Proxy.ProxyRequest, h, hdo, hbody, withHeaders]

theorem handleHTTPRequest_writes (c : Client) (msg : Message) (req : HTTPRequestMessage)
    (env : Loopback) (conn : Nat) (out : Except String HTTPResponseMessage)
    (sent : Option OutRequest)
    (hd : DecodeHTTPRequest msg = .ok req) (hc : c.conn = some conn)
    (hp : c.proxy.ProxyRequest req env = (out, sent)) :
    (c.handleHTTPRequest msg env).events
      = [.write conn (some ⟨TypeHTTPResponse, some (Marshal (.httpResponse
          (match out with
           | .ok resp => resp
           | .error err =>
             ⟨req.RequestID, 502, [], bytesOfString ("Bad Gateway: " ++ err)⟩)))⟩)] ∧
    (c.handleHTTPRequest msg env).sent = sent ∧
    (c.handleHTTPRequest msg env).panicked = false := by
  cases out with
  | error err => simp [Client.handleHTTPRequest, hd, hp, hc, EncodeMessage]
  | ok r => simp [Client.handleHTTPRequest, hd, hp, hc, EncodeMessage]

/-- C11: for every decodable `http_request` frame received by a connected
client, the worker writes exactly one frame, an `http_response` whose payload
carries the request id of the request. If the loopback call fails, because
the request cannot be built, because the HTTP client returns an error for
it, or because the body of the answer cannot be read, the payload has status
502, no headers and the body "Bad Gateway: " followed by the text of the
failure (which names the step and carries the error); otherwise the request
built from the frame was handed to the HTTP client and the status code, the
headers and the body of the payload are those of the local application's
response. -/
theorem client_response_for_request (c : Client) (msg : Message) (req : HTTPRequestMessage)
    (env : Loopback) (conn : Nat)
    (hd : DecodeHTTPRequest msg = .ok req) (hc : c.conn = some conn) :
    (∀ e : String,
      NewRequest req.Method (c.proxy.localURL ++ req.Path) req.Body env = .error e →
      (c.handleHTTPRequest msg env).events
        = [.write conn (some ⟨TypeHTTPResponse, some (Marshal (.httpResponse
            ⟨req.RequestID, 502, [],
              bytesOfString "Bad Gateway: "
                ++ bytesOfString ("failed to create request: " ++ e)⟩))⟩)] ∧
      (c.handleHTTPRequest msg env).sent = none ∧
      (c.handleHTTPRequest msg env).panicked = false) ∧
    (∀ (httpReq0 : OutRequest) (e : String),
      NewRequest req.Method (c.proxy.localURL ++ req.Path) req.Body env = .ok httpReq0 →
      env.roundTrip (withHeaders httpReq0 req) = .error e →
      (c.handleHTTPRequest msg env).events
        = [.write conn (some ⟨TypeHTTPResponse, some (Marshal (.httpResponse
            ⟨req.RequestID, 502, [],
              bytesOfString "Bad Gateway: "
                ++ bytesOfString ("failed to execute request: " ++ e)⟩))⟩)] ∧
      (c.handleHTTPRequest msg env).sent = some (withHeaders httpReq0 req) ∧
      (c.handleHTTPRequest msg env).panicked = false) ∧
    (∀ (httpReq0 : OutRequest) (httpResp : LocalResponse) (e : String),
      NewRequest req.Method (c.proxy.localURL ++ req.Path) req.Body env = .ok httpReq0 →
      env.roundTrip (withHeaders httpReq0 req) = .ok httpResp → httpResp.Body = .error e →
      (c.handleHTTPRequest msg env).events
        = [.write conn (some ⟨TypeHTTPResponse, some (Marshal (.httpResponse
            ⟨req.RequestID, 502, [],
              bytesOfString "Bad Gateway: "
                ++ bytesOfString ("failed to read response body: " ++ e)⟩))⟩)] ∧
      (c.handleHTTPRequest msg env).sent = some (withHeaders httpReq0 req) ∧
      (c.handleHTTPRequest msg env).panicked = false) ∧
    (∀ (httpReq0 : OutRequest) (httpResp : LocalResponse) (body : List Byte),
      NewRequest req.Method (c.proxy.localURL ++ req.Path) req.Body env = .ok httpReq0 →
      env.roundTrip (withHeaders httpReq0 req) = .ok httpResp → httpResp.Body = .ok body →
      (c.handleHTTPRequest msg env).events
        = [.write conn (some ⟨TypeHTTPResponse, some (Marshal (.httpResponse
            ⟨req.RequestID, httpResp.StatusCode, httpResp.Header, body⟩))⟩)] ∧
      (c.handleHTTPRequest msg env).sent = some (withHeaders httpReq0 req) ∧
      (c.handleHTTPRequest msg env).panicked = false) := by
  refine ⟨?_, ?_, ?_, ?_⟩
  · intro e h
    have := handleHTTPRequest_writes c msg req env conn _ _ hd hc
      (ProxyRequest_not_built c.proxy req env e h)
    simpa [bytesOfString_append] using this
  · intro httpReq0 e h hdo
    have := handleHTTPRequest_writes c msg req env conn _ _ hd hc
      (ProxyRequest_not_executed c.proxy req env httpReq0 e h hdo)
    simpa [bytesOfString_append] using this
  · intro httpReq0 httpResp e h hdo hbody
    have := handleHTTPRequest_writes c msg req env conn _ _ hd hc
      (ProxyRequest_not_read c.proxy req env httpReq0 httpResp e h hdo hbody)
    simpa [bytesOfString_append] using this
  · intro httpReq0 httpResp body h hdo hbody
    have := handleHTTPRequest_writes c msg req env conn _ _ hd hc
      (ProxyRequest_answered c.proxy req env httpReq0 httpResp body h hdo hbody)
    simpa using this

theorem client_response_for_request_witness :
    ((Client.mk "wss://tunnel.example.com:4443/tunnel" "dev.example.com"
        (Proxy.New "http://localhost:3000") (some 1) "t1").handleHTTPRequest
        ⟨TypeHTTPRequest, some (Marshal (.httpRequest ⟨"req-1", "GET", "/", [], []⟩))⟩
        ⟨fun _ => .ok (), fun _ => .error "connection refused"⟩).events
      = [.write 1 (some ⟨TypeHTTPResponse, some (Marshal (.httpResponse
          ⟨"req-1", 502, [],
            bytesOfString "Bad Gateway: "
              ++ bytesOfString ("failed to execute request: " ++ "connection refused")⟩))⟩)] :=
  ((client_response_for_request
    (Client.mk "wss://tunnel.example.com:4443/tunnel" "dev.example.com"
      (Proxy.New "http://localhost:3000") (some 1) "t1")
    ⟨TypeHTTPRequest, some (Marshal (.httpRequest ⟨"req-1", "GET", "/", [], []⟩))⟩
    ⟨"req-1", "GET", "/", [], []⟩
    ⟨fun _ => .ok (), fun _ => .error "connection refused"⟩ 1 (by decide) rfl).2.1
    ⟨"GET", "http://localhost:3000/", [], []⟩ "connection refused" (by decide) rfl).1

theorem ProxyRequest_sent (p : Proxy) (req : HTTPRequestMessage) (env : Loopback)
    (httpReq : OutRequest) (hsent : (p.ProxyRequest req env).2 = some httpReq) :
    httpReq = ⟨if req.Method = "" then "GET" else req.Method, p.localURL ++ req.Path,
      req.Headers.foldl
        (fun acc e => e.2.foldl (fun acc' value => HeaderAdd acc' e.1 value) acc) [],
      req.Body⟩ := by
  unfold Proxy.ProxyRequest at hsent
  cases h1 : NewRequest req.Method (p.localURL ++ req.Path) req.Body env with
  | error e => simp [h1] at hsent
  | ok httpReq0 =>
    have h0 : httpReq0
        = ⟨if req.Method = "" then "GET" else req.Method, p.localURL ++ req.Path, [],
            req.Body⟩ := by
      simp only [NewRequest] at h1
      by_cases hv : validMethod (if req.Method = "" then "GET" else req.Method) = true
      · simp only [hv, if_true] at h1
        cases hpu : env.parse (p.localURL ++ req.Path) with
        | error e => simp [hpu] at h1
        | ok u =>
          simp only [hpu, Except.ok.injEq] at h1
          exact h1.symm
      · simp [hv] at h1
    subst h0
    simp only [h1] at hsent
    split at hsent
    · simpa using hsent.symm
    · split at hsent
      · simpa using hsent.symm
      · simpa using hsent.symm

theorem ProxyRequest_sends (p : Proxy) (req : HTTPRequestMessage) (env : Loopback)
    (hm : validMethod (if req.Method = "" then "GET" else req.Method) = true)
    (hu : env.parse (p.localURL ++ req.Path) = .ok ()) :
    ∃ httpReq, (p.ProxyRequest req env).2 = some httpReq := by
  have h1 : NewRequest req.Method (p.localURL ++ req.Path) req.Body env
      = .ok ⟨if req.Method = "" then "GET" else req.Method, p.localURL ++ req.Path, [],
          req.Body⟩ := by
    simp [NewRequest, hm, hu]
  unfold Proxy.ProxyRequest
  simp only [h1]
  split
  · exact ⟨_, rfl⟩
  · split
    · exact ⟨_, rfl⟩
    · exact ⟨_, rfl⟩

/-- C12, the claim refuted: for port 3000 and path `/` the loopback call targets
`http://localhost:3000/`, which is not `http://127.0.0.1:3000/`; a request
with an empty method is sent as `GET`; and two header names of the request
that differ only in case are sent as one name holding the values of both. -/
theorem loopback_call_targets_localhost :
    (((Client.New "wss://tunnel.example.com:4443/tunnel" "dev.example.com" 3000).proxy
        ).ProxyRequest ⟨"req-1", "GET", "/", [], []⟩
        ⟨fun _ => .ok (), fun _ => .error "connection refused"⟩).2
      = some ⟨"GET", "http://localhost:3000/", [], []⟩ ∧
    "http://localhost:3000/" ≠ "http://127.0.0.1:" ++ toString (3000 : Int) ++ "/" ∧
    (((Client.New "wss://tunnel.example.com:4443/tunnel" "dev.example.com" 3000).proxy
        ).ProxyRequest ⟨"req-1", "", "/", [("x-a", ["1"]), ("X-A", ["2"])], []⟩
        ⟨fun _ => .ok (), fun _ => .error "connection refused"⟩).2
      = some ⟨"GET", "http://localhost:3000/", [("X-A", ["1", "2"])], []⟩ := by
  decide

/-- C12 as amended: for every configured port p and every `http_request` with
path s, the loopback call, which is made whenever the method is empty or a
token and the URL parses, targets the URL "http://localhost:" + p + s and
carries the request's method (`GET` when the method is empty), its body
bytes, and for each header name of the request whose canonical form no other
name of the request shares, under that name the request's list of values in
the same order. -/
theorem loopback_call_of_request (serverURL domain : String) (port : Int)
    (req : HTTPRequestMessage) (env : Loopback) :
    (validMethod (if req.Method = "" then "GET" else req.Method) = true →
      env.parse ("http://localhost:" ++ toString port ++ req.Path) = .ok () →
      ∃ httpReq,
        ((Client.New serverURL domain port).proxy.ProxyRequest req env).2 = some httpReq) ∧
    (∀ httpReq : OutRequest,
      ((Client.New serverURL domain port).proxy.ProxyRequest req env).2 = some httpReq →
      httpReq.URL = "http://localhost:" ++ toString port ++ req.Path ∧
      httpReq.Method = (if req.Method = "" then "GET" else req.Method) ∧
      httpReq.Body = req.Body ∧
      (∀ (key : String) (values : List String), (key, values) ∈ req.Headers →
        (GoMap.keys req.Headers).Nodup →
        (∀ e ∈ req.Headers, e.1 ≠ key →
          CanonicalMIMEHeaderKey e.1 ≠ CanonicalMIMEHeaderKey key) →
        HeaderValues httpReq.Header key = values)) := by
  constructor
  · intro hm hu
    exact ProxyRequest_sends _ req env hm hu
  · intro httpReq hsent
    have h := ProxyRequest_sent _ req env httpReq hsent
    subst h
    refine ⟨rfl, rfl, rfl, ?_⟩
    intro key values hmem hnd hcan
    unfold HeaderValues
    simp only
    rw [getD_copy_headers, valuesUnder_unique req.Headers key values hmem hnd hcan]
    simp [GoMap.get]

theorem loopback_call_of_request_witness :
    ∃ httpReq : OutRequest,
      (((Client.New "wss://tunnel.example.com:4443/tunnel" "dev.example.com" 8080).proxy
        ).ProxyRequest ⟨"req-1", "POST", "/api?x=1", [("Accept", ["a", "b"])], [1, 2]⟩
        ⟨fun _ => .ok (), fun _ => .error "connection refused"⟩).2 = some httpReq ∧
      httpReq.URL = "http://localhost:" ++ toString (8080 : Int) ++ "/api?x=1" ∧
      HeaderValues httpReq.Header "Accept" = ["a", "b"] :=
  have h := loopback_call_of_request "wss://tunnel.example.com:4443/tunnel" "dev.example.com"
    8080 ⟨"req-1", "POST", "/api?x=1", [("Accept", ["a", "b"])], [1, 2]⟩
    ⟨fun _ => .ok (), fun _ => .error "connection refused"⟩
  (h.1 (by decide) rfl).elim fun httpReq hs =>
    ⟨httpReq, hs, (h.2 httpReq hs).1,
      (h.2 httpReq hs).2.2.2 "Accept" ["a", "b"] (by decide) (by decide) (by decide)⟩

/-- C18, the code at the failing input: when the reply to the `register` frame
has type `error` and no data, or data that is no JSON object, `DecodeError`
fails and `Connect` panics on the nil payload after it has closed the
channel; with an error payload that decodes it returns the registration
failure. -/
theorem Connect_panics_on_undecodable_error :
    ((Client.New "wss://tunnel.example.com:4443/tunnel" "dev.example.com" 3000).Connect
        ⟨.ok 1, .ok (), .ok ⟨TypeError, none⟩⟩).1
      = .panicked "runtime error: invalid memory address or nil pointer dereference" ∧
    ((Client.New "wss://tunnel.example.com:4443/tunnel" "dev.example.com" 3000).Connect
        ⟨.ok 1, .ok (), .ok ⟨TypeError, some (.str "domain in use")⟩⟩).1
      = .panicked "runtime error: invalid memory address or nil pointer dereference" ∧
    ((Client.New "wss://tunnel.example.com:4443/tunnel" "dev.example.com" 3000).Connect
        ⟨.ok 1, .ok (), .ok ⟨TypeError,
          some (Marshal (.error ⟨"REGISTRATION_FAILED", "domain in use"⟩))⟩⟩).1
      = .returned (.error "registration failed: REGISTRATION_FAILED - domain in use") := by
  decide

/-- C20, the code at the failing input: the `http_response` frame of a client
worker and the `ping` frame of the client's heartbeat are written with no
lock held, and so are the `error` and `registered` frames of the server's
acceptance handler; the server's `pong` and `http_request` frames are written
under the lock of the endpoint. -/
theorem client_writes_hold_no_lock :
    writesUnderLock []
        ((Client.mk "wss://tunnel.example.com:4443/tunnel" "dev.example.com"
            (Proxy.New "http://localhost:3000") (some 1) "t1").handleHTTPRequest
          ⟨TypeHTTPRequest, some (Marshal (.httpRequest ⟨"req-1", "GET", "/", [], []⟩))⟩
          ⟨fun _ => .ok (), fun _ => .error "connection refused"⟩).events = false ∧
    writesUnderLock []
        ((Client.mk "wss://tunnel.example.com:4443/tunnel" "dev.example.com"
            (Proxy.New "http://localhost:3000") (some 1) "t1").heartbeat [.ok ()]).events
      = false ∧
    writesUnderLock [] (Manager.sendError 1 "REGISTRATION_FAILED" "domain in use") = false ∧
    writesUnderLock []
        ((Manager.New Registry.New).HandleWebSocket
          ⟨.ok 1, .ok ⟨TypeRegister, some (Marshal (.register ⟨"dev.example.com", "1.0"⟩))⟩,
            "t1", .ok (), []⟩).events = false ∧
    writesUnderLock [] (Manager.handlePing ⟨"dev.example.com", "t1", 1⟩) = true ∧
    writesUnderLock []
        ((Manager.mk ⟨[("dev.example.com", ⟨"dev.example.com", "t1", 1⟩)]⟩ []).SendHTTPRequest
          "dev.example.com" ⟨"req-1", "GET", "/", [], []⟩
          ⟨5, 6, .ok (), fun m => m, .timeout⟩).2.2 = true := by
  decide

end Ossgrok
